import Mathlib

/-!
Verification development for the audio/HDRI conversion HTTP microservice.

The service code (FastAPI handlers in `app/main.py`, the audio conversion
service in `app/services/conversion_service.py`, and the EXR compression
service in `app/services/environment_hdri_conversion.py`) is shallowly
embedded below.  External collaborators (the ffmpeg transcoder, the OpenEXR
codec library, the skimage resizer, and the Supabase storage client) are
modelled as oracles/parameters: the embedding records the exact arguments the
code passes to them and uses their oracle-provided results, mirroring the
Python control flow, the temporary-file bookkeeping, and the JSON responses.

File writes under `/tmp` are modelled as always succeeding (the directory
exists); per-request `uuid.uuid4()` values are explicit parameters.
-/

/-! ## Python string helpers -/

/-- ASCII lowering of one character, the fragment of `str.lower` exercised by
the code (extensions and storage paths). -/
def asciiLowerChar (c : Char) : Char :=
  if 'A' ≤ c ∧ c ≤ 'Z' then Char.ofNat (c.toNat + 32) else c

/-- Python str.lower on the ASCII fragment. -/
def asciiLower (s : String) : String := String.mk (s.data.map asciiLowerChar)

/-- Python str.endswith: the last characters of `s` equal `suf`. -/
def pyEndsWith (s suf : String) : Bool :=
  decide (s.data.reverse.take suf.data.length = suf.data.reverse)

/-- Test that `p` starts with `d` (used for the file-below-directory checks). -/
def strHasPre (d p : String) : Bool :=
  decide (p.data.take d.data.length = d.data)

/-! ## POSIX pure-path embedding (`pathlib.PurePosixPath`)

`PurePosixPath` parsing drops empty and `"."` components, records the root
(`//` exactly for two leading slashes, `/` for one or three-plus), and
`str()` re-joins the parts with single slashes. -/

/-- Split a character list at slash characters, keeping empty pieces
(Python str.split with a slash separator). -/
def splitSlashAux : List Char → List Char → List String
  | [], acc => [String.mk acc.reverse]
  | c :: rest, acc =>
    if c = '/' then String.mk acc.reverse :: splitSlashAux rest []
    else splitSlashAux rest (c :: acc)

/-- Split a string at slash characters. -/
def splitSlash (s : String) : List String := splitSlashAux s.data []

/-- Number of leading slash characters. -/
def leadSlashes (s : String) : Nat :=
  (s.data.takeWhile (fun c => c = '/')).length

structure PurePath where
  root : Nat              -- 0: relative, 1: "/", 2: "//"
  parts : List String
  deriving Repr, DecidableEq

/-- Parse `s` as a PurePosixPath: drop empty and dot components; exactly two leading
slashes give root `"//"`, one or three-plus give `"/"`. -/
def parsePath (s : String) : PurePath :=
  { root := if leadSlashes s = 2 then 2 else if leadSlashes s ≥ 1 then 1 else 0
    parts := (splitSlash s).filter (fun c => c ≠ "" ∧ c ≠ ".") }

/-- Join path components with slashes. -/
def joinParts : List String → String
  | [] => ""
  | [p] => p
  | p :: ps => p ++ "/" ++ joinParts ps

/-- Render a PurePosixPath back to a string. -/
def pathStr (p : PurePath) : String :=
  let rootStr := if p.root = 2 then "//" else if p.root = 1 then "/" else ""
  let body := joinParts p.parts
  if rootStr = "" ∧ body = "" then "." else rootStr ++ body

/-- Python pathlib name: the final component, empty for a bare root. -/
def pathName (s : String) : String := (parsePath s).parts.getLastD ""

/-- Index (from the left) of the last dot in a list of characters. -/
def lastDotIdx (l : List Char) : Option Nat :=
  match l.reverse.findIdx? (fun c => c = '.') with
  | none => none
  | some k => some (l.length - 1 - k)

/-- Pathlib suffix of a *name*: the part from the last dot, provided
that dot is neither the first nor the last character. -/
def pySuffixOfName (name : String) : String :=
  match lastDotIdx name.data with
  | none => ""
  | some i =>
    if 0 < i ∧ i < name.data.length - 1 then String.mk (name.data.drop i) else ""

/-- Python pathlib suffix of a path. -/
def pySuffix (s : String) : String := pySuffixOfName (pathName s)

/-- Models with_suffix: the string of the path with its suffix replaced by
`.mp3`; `Except` models the
`ValueError` raised when the path has an empty name. -/
def withSuffixMp3 (s : String) : Except Unit String :=
  let p := parsePath s
  let name := p.parts.getLastD ""
  if name = "" then .error () else
  let old := pySuffixOfName name
  let newName := String.mk (name.data.take (name.data.length - old.data.length)) ++ ".mp3"
  .ok (pathStr { p with parts := p.parts.dropLast ++ [newName] })

/-- The reading the claim suggests for suffix replacement: a purely
textual replacement on the final slash-separated component, leaving the rest
of the string untouched (no path normalisation). -/
def specReplaceSuffixMp3 (s : String) : String :=
  let revName := s.data.reverse.takeWhile (fun c => c ≠ '/')
  let dir := String.mk (s.data.take (s.data.length - revName.length))
  let name := String.mk revName.reverse
  let old := pySuffixOfName name
  dir ++ String.mk (name.data.take (name.data.length - old.data.length)) ++ ".mp3"

/-- Python os.path.basename: everything after the last slash (possibly empty). -/
def pyBasename (s : String) : String :=
  String.mk (s.data.reverse.takeWhile (fun c => c ≠ '/')).reverse

/-- Python os.path.splitext, first component: drop the extension, which starts at the last
dot of the final component provided some earlier character of that component
is not a dot. -/
def pySplitextStem (s : String) : String :=
  let name := pyBasename s
  match lastDotIdx name.data with
  | none => s
  | some i =>
    if (name.data.take i).any (fun c => c ≠ '.') then
      String.mk (s.data.take (s.data.length - (name.data.length - i)))
    else s

/-! ## Loudness diagnostics parsing (`AudioConversionService.convert_audio`)

The service runs `re.search` for four patterns of the shape
`LIT \s* ([-\d.]+) \s* SUF` over the ffmpeg stderr text and converts each
first match with Python `float`.  Because the space class, the number class
and the first characters of the suffix literals are pairwise disjoint, the
greedy, backtracking-free scan below coincides with the Python leftmost-match
semantics for these patterns. -/

/-- Python `\s` on the ASCII fragment. -/
def isPySpace (c : Char) : Bool :=
  c = ' ' || c = '\t' || c = '\n' || c = '\r' || c = '\x0b' || c = '\x0c'

/-- The `[-\d.]` character class. -/
def isNumChar (c : Char) : Bool := c.isDigit || c = '-' || c = '.'

/-- Consume a literal from the head of the input. -/
def dropLit : List Char → List Char → Option (List Char)
  | [], l => some l
  | _ :: _, [] => none
  | c :: cs, d :: ds => if c = d then dropLit cs ds else none

/-- Try to match `LIT \s* ([-\d.]+) \s* SUF` exactly at the head of `l`,
returning the captured group. -/
def matchHere (lit suf : List Char) (l : List Char) : Option (List Char) :=
  match dropLit lit l with
  | none => none
  | some l1 =>
    let l2 := (l1.span isPySpace).2
    let g := (l2.span isNumChar).1
    let l3 := (l2.span isNumChar).2
    if g.isEmpty then none else
    match dropLit suf ((l3.span isPySpace).2) with
    | none => none
    | some _ => some g

/-- Models re.search: first (leftmost) match of the pattern in the text. -/
def reSearch (lit suf : List Char) : List Char → Option (List Char)
  | [] => matchHere lit suf []
  | l@(_ :: rest) =>
    match matchHere lit suf l with
    | some g => some g
    | none => reSearch lit suf rest

/-- Whether Python `float()` accepts a string drawn from `[-\d.]+`:
at most one leading minus, then digits with at most one dot and at least one
digit. -/
def pyFloatOk (g : List Char) : Bool :=
  let g1 := match g with | '-' :: t => t | t => t
  g1.all (fun c => c.isDigit || c = '.') &&
    decide ((g1.filter (fun c => c = '.')).length ≤ 1) &&
    g1.any (fun c => c.isDigit)

/-- A metric value: a parsed float (kept as its source numeral) or `"N/A"`. -/
inductive Val where
  | na : Val
  | num : String → Val
  deriving Repr, DecidableEq

structure Loudness where
  integrated_loudness : Val
  true_peak : Val
  loudness_range : Val
  threshold : Val
  deriving Repr, DecidableEq

def Loudness.initial : Loudness := ⟨.na, .na, .na, .na⟩

def iLit : List Char := ['I', ':']
def lufsSuf : List Char := ['L', 'U', 'F', 'S']
def peakLit : List Char := ['P', 'e', 'a', 'k', ':']
def dbfsSuf : List Char := ['d', 'B', 'F', 'S']
def lraLit : List Char := ['L', 'R', 'A', ':']
def luSuf : List Char := ['L', 'U']
def thLit : List Char := ['T', 'h', 'r', 'e', 's', 'h', 'o', 'l', 'd', ':']

/-- One `if match: field = float(group)` step.  A `float()` failure raises,
which the service catches around the whole parsing block: `.error` carries
the fields assigned so far and aborts the remaining steps. -/
def parseStep (search : Option (List Char)) (set : Loudness → Val → Loudness)
    (d : Loudness) : Except Loudness Loudness :=
  match search with
  | none => .ok d
  | some g => if pyFloatOk g then .ok (set d (.num (String.mk g))) else .error d

/-- The loudness-parsing block of `convert_audio`, applied to the ffmpeg
stderr text. -/
def parseLoudness (out : List Char) : Loudness :=
  let r : Except Loudness Loudness := do
    let d ← parseStep (reSearch iLit lufsSuf out)
      (fun d v => { d with integrated_loudness := v }) Loudness.initial
    let d ← parseStep (reSearch peakLit dbfsSuf out)
      (fun d v => { d with true_peak := v }) d
    let d ← parseStep (reSearch lraLit luSuf out)
      (fun d v => { d with loudness_range := v }) d
    parseStep (reSearch thLit lufsSuf out)
      (fun d v => { d with threshold := v }) d
  match r with
  | .ok d => d
  | .error d => d

/-- The Python dict, as a key/value list (insertion order). -/
def loudnessEntries (d : Loudness) : List (String × Val) :=
  [("integrated_loudness", d.integrated_loudness),
   ("true_peak", d.true_peak),
   ("loudness_range", d.loudness_range),
   ("threshold", d.threshold)]

/-- Value claimed by the spec for a search result. -/
def vOf : Option (List Char) → Val
  | none => .na
  | some g => .num (String.mk g)

/-! ## EXR compression model (`compress_exr`)

The OpenEXR/Imath/numpy/skimage collaborators are parameters: `resizeF a h w`
models `skimage.transform.resize(a, (h, w), mode=reflect,
anti_aliasing=True, preserve_range=True)` on a channel array of type `α`, and
`toHalfBytes a` models `np.ascontiguousarray(a.astype(np.float16)).tobytes()`.
The function mirrors `compress_exr(input_path, output_dir)`: it reads the
R/G/B/A channels present in the input header (in that order), resizes each to
(1024, 2048), builds the new header, and writes one output file. -/

inductive PixType where
  | UINT : PixType
  | HALF : PixType
  | FLOAT : PixType
  deriving Repr, DecidableEq

inductive ExrCompression where
  | NONE : ExrCompression
  | RLE : ExrCompression
  | ZIPS : ExrCompression
  | ZIP : ExrCompression
  | PIZ : ExrCompression
  | PXR24 : ExrCompression
  deriving Repr, DecidableEq

structure Box2i where
  minx : Int
  miny : Int
  maxx : Int
  maxy : Int
  deriving Repr, DecidableEq

structure ExrHeader where
  dataWindow : Box2i
  displayWindow : Box2i
  compression : ExrCompression
  channels : List (String × PixType)
  deriving Repr, DecidableEq

/-- An opened input file: its header plus, for each channel name, the pixel
array obtained by reading that channel as 32-bit float. -/
structure ExrInput (α : Type) where
  header : ExrHeader
  channelData : String → α

structure ExrOutputFile (β : Type) where
  path : String
  header : ExrHeader
  pixelData : List (String × β)

def rgbaNames : List String := ["R", "G", "B", "A"]

def hasChannel (h : ExrHeader) (ch : String) : Bool :=
  (h.channels.find? (fun c => c.1 = ch)).isSome

/-- Shallow embedding of `compress_exr`.  Returns the list of files it
writes. -/
def compress_exr {α β : Type} (resizeF : α → Nat → Nat → α) (toHalfBytes : α → β)
    (input_path output_dir : String) (inp : ExrInput α) : List (ExrOutputFile β) :=
  let header := inp.header
  let presentRGBA := rgbaNames.filter (hasChannel header)
  let target_width : Nat := 2048
  let target_height : Nat := 1024
  let resized := presentRGBA.map
    (fun ch => (ch, resizeF (inp.channelData ch) target_height target_width))
  let newHeader : ExrHeader :=
    { header with
      dataWindow := ⟨0, 0, (target_width : Int) - 1, (target_height : Int) - 1⟩
      displayWindow := ⟨0, 0, (target_width : Int) - 1, (target_height : Int) - 1⟩
      compression := .ZIP
      channels := header.channels.map (fun c => (c.1, PixType.HALF)) }
  let base := pySplitextStem (pyBasename input_path)
  [{ path := output_dir ++ "/" ++ base ++ "_2K_ZIP.exr"
     header := newHeader
     pixelData := resized.map (fun cd => (cd.1, toHalfBytes cd.2)) }]

/-! ## JSON values (for response bodies) -/

inductive J where
  | s : String → J
  | n : Int → J
  | fl : String → J          -- a Python float, carried as its source numeral
  | obj : List (String × J) → J
  | arr : List J → J

/-- Field lookup in a JSON object. -/
def jGet (j : J) (k : String) : Option J :=
  match j with
  | J.obj fields => (fields.find? (fun kv => kv.1 = k)).map (fun kv => kv.2)
  | _ => none

/-- Two-level field lookup. -/
def jGet2 (j : J) (k1 k2 : String) : Option J :=
  match jGet j k1 with
  | some j1 => jGet j1 k2
  | none => none

/-! ## Events and the scratch filesystem -/

inductive Ev where
  | download : String → Ev
  | writeFile : String → Ev
  | runFfmpeg : List String → Ev
  | parseDiag : Ev
  | invokeCodec : String → Ev
  /-- bucket, remote path, uploaded bytes, local source file -/
  | upload : String → String → String → String → Ev
  | getPublicUrl : String → Ev
  | deleteFile : String → Ev
  | deleteDir : String → Ev
  | respond : Nat → Ev
  deriving Repr, DecidableEq

/-- The scratch filesystem: association list from path to contents. -/
abbrev Fs := List (String × String)

def fsWrite (p c : String) (fs : Fs) : Fs :=
  (p, c) :: fs.filter (fun q => q.1 ≠ p)

def fsRemove (p : String) (fs : Fs) : Fs :=
  fs.filter (fun q => q.1 ≠ p)

def fsRead (p : String) (fs : Fs) : Option String :=
  (fs.find? (fun q => q.1 = p)).map (fun q => q.2)

def fsHas (p : String) (fs : Fs) : Bool :=
  (fs.find? (fun q => q.1 = p)).isSome

/-- Models shutil.rmtree: drop every file below the directory. -/
def fsRmtree (d : String) (fs : Fs) : Fs :=
  fs.filter (fun q => ¬ strHasPre (d ++ "/") q.1)

/-! ## Oracles for the external collaborators -/

/-- Results of the three ffmpeg subprocess invocations of one request:
stderr text of the loudness analysis (`.error` = nonzero exit /
`CalledProcessError`), the conversion run (`.ok (some bytes)` = exit 0 and
output file written, `.ok none` = exit 0 but no file), and the stderr of the
verification run. -/
structure FfOracle where
  loudnessRes : Except String String
  convertRes : Except String (Option String)
  verifyStderr : String

/-- Supabase storage client behaviour for one request. -/
structure StorOracle where
  downloadRes : Except String String
  uploadRes : Except String Unit
  publicUrl : String

/-- The OpenEXR library behaviour for one request: `.ok bytes` = compression
succeeded writing a file with those bytes, `.error` = the library raised. -/
structure CodecOracle where
  compressRes : Except String String

/-- A Python exception: type name and `str(e)`. -/
structure Exc where
  ty : String
  msg : String
  deriving Repr, DecidableEq

/-! ## The audio conversion service (`AudioConversionService.convert_audio`) -/

def supportedAudioFormats : List String :=
  [".mp3", ".wav", ".aac", ".m4a", ".wma", ".ogg", ".flac",
   ".alac", ".aiff", ".webm", ".opus", ".mp2"]

/-- Models the comma join of SUPPORTED_FORMATS (one fixed iteration order). -/
def audioFormatsJoined : String := String.intercalate ", " supportedAudioFormats

def audioInputPath (u fn : String) : String := "/tmp/" ++ u ++ "-" ++ fn

def audioOutputPath (u : String) : String := "/tmp/" ++ u ++ "-converted.mp3"

def loudnessArgs (inputFn : String) : List String :=
  ["ffmpeg", "-i", inputFn, "-filter_complex", "ebur128=peak=true:meter=18",
   "-f", "null", "-"]

def convertCmdArgs (inputFn outputFn q sr : String) : List String :=
  ["ffmpeg", "-y", "-i", inputFn, "-map", "0:a:0", "-codec:a", "libmp3lame",
   "-q:a", q, "-ar", sr, "-ac", "2", "-compression_level", "0",
   "-map_metadata", "0", "-id3v2_version", "3", "-b:a", "96k",
   "-minrate", "96k", "-maxrate", "256k", "-bufsize", "512k", outputFn]

def verifyCmdArgs (outputFn : String) : List String :=
  ["ffmpeg", "-v", "error", "-i", outputFn, "-f", "null", "-"]

/-- The `samplerate` keyword default of `convert_audio`; the `/convert`
handler does not pass the argument, so this value applies there. -/
def defaultSamplerate : String := "44100"

structure SvcResult where
  outcome : Except Exc (String × Loudness)
  trace : List Ev
  fs : Fs

/-- Models the finally block of the service: delete the staged input if it exists. -/
def svcFinally (inFn : String) (fs : Fs) : Fs × List Ev :=
  if fsHas inFn fs then (fsRemove inFn fs, [Ev.deleteFile inFn]) else (fs, [])

/-- Shallow embedding of `AudioConversionService.convert_audio`.  `fn` is the
filename of the upload, `c` the bytes it yields, `u` the request uuid4,
`fs0` the scratch filesystem on entry. -/
def audioSvc (fn c u q sr : String) (fo : FfOracle) (fs0 : Fs) : SvcResult :=
  let ext := asciiLower (pySuffix fn)
  if ext ∈ supportedAudioFormats then
    let inFn := audioInputPath u fn
    let outFn := audioOutputPath u
    let fs1 := fsWrite inFn c fs0
    if c.length = 0 then
      let r := svcFinally inFn fs1
      { outcome := .error ⟨"ValueError", "Input file is empty"⟩
        trace := [Ev.writeFile inFn] ++ r.2, fs := r.1 }
    else
      match fo.loudnessRes with
      | .error e =>
        let r := svcFinally inFn fs1
        { outcome := .error ⟨"ValueError", "Conversion failed: " ++ e⟩
          trace := [Ev.writeFile inFn, Ev.runFfmpeg (loudnessArgs inFn)] ++ r.2
          fs := r.1 }
      | .ok diag =>
        let d := parseLoudness diag.data
        let trBase := [Ev.writeFile inFn, Ev.runFfmpeg (loudnessArgs inFn),
                       Ev.parseDiag, Ev.runFfmpeg (convertCmdArgs inFn outFn q sr)]
        match fo.convertRes with
        | .error e =>
          let r := svcFinally inFn fs1
          { outcome := .error ⟨"ValueError", "Conversion failed: " ++ e⟩
            trace := trBase ++ r.2, fs := r.1 }
        | .ok none =>
          let r := svcFinally inFn fs1
          { outcome := .error ⟨"ValueError", "Output file was not created"⟩
            trace := trBase ++ r.2, fs := r.1 }
        | .ok (some oc) =>
          let fs2 := fsWrite outFn oc fs1
          if oc.length = 0 then
            let r := svcFinally inFn fs2
            { outcome := .error ⟨"ValueError", "Output file is empty"⟩
              trace := trBase ++ r.2, fs := r.1 }
          else if fo.verifyStderr ≠ "" then
            let r := svcFinally inFn fs2
            { outcome := .error ⟨"ValueError", "Generated MP3 file is invalid or corrupted"⟩
              trace := trBase ++ [Ev.runFfmpeg (verifyCmdArgs outFn)] ++ r.2
              fs := r.1 }
          else
            let r := svcFinally inFn fs2
            { outcome := .ok (outFn, d)
              trace := trBase ++ [Ev.runFfmpeg (verifyCmdArgs outFn)] ++ r.2
              fs := r.1 }
  else
    { outcome := .error ⟨"ValueError",
        "Unsupported file format: " ++ ext ++ ". Supported formats are: " ++ audioFormatsJoined⟩
      trace := [], fs := fs0 }

/-! ## The `/convert` handler (`convert_audio` in `app/main.py`) -/

def bucketName : String := "realease-experience-content"

/-- The generic 500 error body of both handlers. -/
def errorBody (ty msg : String) : J :=
  J.obj [("status", J.s "error"), ("message", J.s msg),
         ("error", J.obj [("type", J.s ty), ("detail", J.s msg)])]

def jVal : Val → J
  | .na => J.s "N/A"
  | .num g => J.fl g

/-- Formatted metric with its unit appended, using `fr` for the Python
float-to-string conversion. -/
def jFmt (fr : String → String) (v : Val) (u : String) : J :=
  match v with
  | .na => J.s "N/A"
  | .num g => J.s (fr g ++ " " ++ u)

def audioSuccessBody (fr : String → String) (publicUrl path : String)
    (d : Loudness) : J :=
  J.obj [("status", J.s "success"),
         ("message", J.s "Audio file converted and uploaded successfully"),
         ("data", J.obj
           [("public_url", J.s publicUrl),
            ("path", J.s path),
            ("bucket", J.s bucketName),
            ("content_type", J.s "audio/mpeg"),
            ("audio_metrics", J.obj
              [("integrated_loudness", jVal d.integrated_loudness),
               ("true_peak", jVal d.true_peak),
               ("loudness_range", jVal d.loudness_range),
               ("threshold", jVal d.threshold)]),
            ("audio_metrics_formatted", J.obj
              [("integrated_loudness", jFmt fr d.integrated_loudness "LUFS"),
               ("true_peak", jFmt fr d.true_peak "dBFS"),
               ("loudness_range", jFmt fr d.loudness_range "LU"),
               ("threshold", jFmt fr d.threshold "LUFS")])])]

structure FlowResult where
  status : Nat
  body : J
  trace : List Ev
  fs : Fs

/-- Models the finally block of the handler: delete the staged download and, when set,
the converted file — each only if it exists. -/
def mainFinally (tempIn : String) (cp : Option String) (fs : Fs) : Fs × List Ev :=
  let r1 := if fsHas tempIn fs then (fsRemove tempIn fs, [Ev.deleteFile tempIn])
            else (fs, ([] : List Ev))
  match cp with
  | none => r1
  | some p =>
    if fsHas p r1.1 then (fsRemove p r1.1, r1.2 ++ [Ev.deleteFile p])
    else r1

/-- The staging path of the downloaded input, `/tmp/{Path(csp).name}`. -/
def tempInOf (csp : String) : String := "/tmp/" ++ pathName csp

/-- The service invocation made by the handler: filename `Path(csp).name`,
the downloaded bytes, the default samplerate, on a scratch filesystem holding
the staged download. -/
def audioSvcOf (csp ct u q : String) (fo : FfOracle) : SvcResult :=
  audioSvc (pathName csp) ct u q defaultSamplerate fo (fsWrite (tempInOf csp) ct [])

/-- Models the result-path fixing of the handler: keep `rsp` if it already ends in
`.mp3` case-insensitively, otherwise apply with_suffix. -/
def mp3PathE (rsp : String) : Except Unit String :=
  if pyEndsWith (asciiLower rsp) ".mp3" then Except.ok rsp else withSuffixMp3 rsp

/-- Shallow embedding of the `/convert` handler.  `csp`/`rsp`/`q` are the
form fields, `u` the service uuid4, `fr` the Python float-to-string. -/
def audioFlow (csp rsp q u : String) (fo : FfOracle) (so : StorOracle)
    (fr : String → String) : FlowResult :=
  if csp = "" then
    { status := 400
      body := J.obj [("detail", J.s "No convert_supabase_storage_path provided")]
      trace := [Ev.respond 400], fs := [] }
  else
    match so.downloadRes with
    | .error e =>
      { status := 500, body := errorBody "Exception" e
        trace := [Ev.download csp, Ev.respond 500], fs := [] }
    | .ok content =>
      if content = "" then
        { status := 500
          body := errorBody "HTTPException" ("400: File not found in supabase: " ++ csp)
          trace := [Ev.download csp, Ev.respond 500], fs := [] }
      else
        let tempIn := tempInOf csp
        let tr1 := [Ev.download csp, Ev.writeFile tempIn]
        let svc := audioSvcOf csp content u q fo
        match svc.outcome with
        | .error ex =>
          let r := mainFinally tempIn none svc.fs
          { status := 500, body := errorBody ex.ty ex.msg
            trace := tr1 ++ svc.trace ++ r.2 ++ [Ev.respond 500], fs := r.1 }
        | .ok pd =>
          let cp := pd.1
          match fsRead cp svc.fs with
          | none =>
            let r := mainFinally tempIn (some cp) svc.fs
            { status := 500
              body := errorBody "FileNotFoundError"
                ("[Errno 2] No such file or directory: " ++ cp)
              trace := tr1 ++ svc.trace ++ r.2 ++ [Ev.respond 500], fs := r.1 }
          | some oc =>
            match mp3PathE rsp with
            | .error _ =>
              let r := mainFinally tempIn (some cp) svc.fs
              { status := 500
                body := errorBody "ValueError"
                  ("PurePosixPath(" ++ rsp ++ ") has an empty name")
                trace := tr1 ++ svc.trace ++ r.2 ++ [Ev.respond 500], fs := r.1 }
            | .ok path =>
              match so.uploadRes with
              | .error e =>
                let r := mainFinally tempIn (some cp) svc.fs
                { status := 500, body := errorBody "Exception" e
                  trace := tr1 ++ svc.trace ++ [Ev.upload bucketName path oc cp]
                           ++ r.2 ++ [Ev.respond 500]
                  fs := r.1 }
              | .ok _ =>
                let r := mainFinally tempIn (some cp) svc.fs
                { status := 200
                  body := audioSuccessBody fr so.publicUrl path pd.2
                  trace := tr1 ++ svc.trace
                           ++ [Ev.upload bucketName path oc cp, Ev.getPublicUrl path]
                           ++ r.2 ++ [Ev.respond 200]
                  fs := r.1 }

/-! ## The `/convert_environment_hdri` handler and HDRI service -/

def hdriSupportedFormats : List String := [".exr"]

def hdriInputPath (u fn : String) : String := "/tmp/" ++ u ++ "-" ++ fn

def hdriOutputDir (u : String) : String := "/tmp/" ++ u ++ "-output"

/-- Path of the single file `compress_exr` writes for this request. -/
def hdriOutputPath (u fn : String) : String :=
  hdriOutputDir u ++ "/" ++ pySplitextStem (pyBasename (hdriInputPath u fn)) ++ "_2K_ZIP.exr"

/-- Conversion metadata of the HDRI service, including the `temp_files` entry it
adds for cleanup. -/
def hdriMetadata (fn : String) (size : Nat) (outBase : String) (outSize : Nat)
    (inFn odir : String) (ratioFmt : Nat → Nat → String) : J :=
  J.obj [("original_filename", J.s fn),
         ("original_size", J.n size),
         ("conversion_type", J.s "EXR compression"),
         ("compression_results", J.arr
           [J.obj [("file", J.s outBase),
                   ("original_size", J.n size),
                   ("compressed_size", J.n outSize),
                   ("compression_ratio", J.s (ratioFmt size outSize))]]),
         ("temp_files", J.obj
           [("input_file", J.s inFn), ("output_dir", J.s odir)])]

structure HdriResult where
  status : Nat
  body : J
  trace : List Ev
  fs : Fs
  dirs : List String

/-- Shallow embedding of the `/convert_environment_hdri` handler together
with `EnvironmentHdriConversionService.convert`.  `fn`/`c` are the filename
and bytes of the upload, `rsp` the result storage path, `u` the request `uuid4`,
`ratioFmt` the Python percentage formatting of the compression ratio. -/
def hdriFlow (fn c rsp u : String) (co : CodecOracle) (so : StorOracle)
    (ratioFmt : Nat → Nat → String) : HdriResult :=
  let ext := asciiLower (pySuffix fn)
  if ext ∈ hdriSupportedFormats then
    let inFn := hdriInputPath u fn
    let odir := hdriOutputDir u
    let fs1 := fsWrite inFn c []
    if c.length = 0 then
      { status := 500, body := errorBody "ValueError" "Input file is empty"
        trace := [Ev.writeFile inFn, Ev.deleteFile inFn, Ev.respond 500]
        fs := fsRemove inFn fs1, dirs := [] }
    else
      match co.compressRes with
      | .error e =>
        { status := 500, body := errorBody "Exception" e
          trace := [Ev.writeFile inFn, Ev.invokeCodec inFn, Ev.deleteFile inFn,
                    Ev.deleteDir odir, Ev.respond 500]
          fs := fsRmtree odir (fsRemove inFn fs1), dirs := [] }
      | .ok oc =>
        let opath := hdriOutputPath u fn
        let fs2 := fsWrite opath oc fs1
        let outBase := pyBasename opath
        let md := hdriMetadata fn c.length outBase oc.length inFn odir ratioFmt
        match so.uploadRes with
        | .error e =>
          { status := 500, body := errorBody "Exception" e
            trace := [Ev.writeFile inFn, Ev.invokeCodec inFn,
                      Ev.upload bucketName rsp oc opath, Ev.deleteFile inFn,
                      Ev.deleteDir odir, Ev.respond 500]
            fs := fsRmtree odir (fsRemove inFn fs2), dirs := [] }
        | .ok _ =>
          { status := 200
            body := J.obj [("status", J.s "success"),
              ("message", J.s "Environment HDRI files converted and uploaded successfully"),
              ("data", J.obj
                [("uploaded_files", J.arr
                   [J.obj [("filename", J.s outBase), ("path", J.s rsp),
                           ("public_url", J.s so.publicUrl)]]),
                 ("metadata", md)])]
            trace := [Ev.writeFile inFn, Ev.invokeCodec inFn,
                      Ev.upload bucketName rsp oc opath, Ev.getPublicUrl rsp,
                      Ev.deleteFile inFn, Ev.deleteDir odir, Ev.respond 200]
            fs := fsRmtree odir (fsRemove inFn fs2), dirs := [] }
  else
    { status := 400
      body := J.obj [("status", J.s "error"),
        ("message", J.s ("Unsupported file format: " ++ ext
          ++ ". Supported formats are: .exr"))]
      trace := [Ev.respond 400], fs := [], dirs := [] }

/-! ## The dataflow-ordering automaton (claim C7)

A left-to-right scan checking the linear order of the spec: staging writes precede
any converter invocation; converter invocations and diagnostics parsing
precede any storage upload; a public URL is only resolved after an upload;
a local file is never uploaded after it (or a directory containing it) was
deleted; and nothing happens after the response. -/

structure ScanSt where
  invoked : Bool
  uploaded : Bool
  deletedFiles : List String
  deletedDirs : List String
  responded : Bool
  ok : Bool

def scanInit : ScanSt := ⟨false, false, [], [], false, true⟩

def evStep (st : ScanSt) (e : Ev) : ScanSt :=
  if st.ok = false then st
  else if st.responded then { st with ok := false }
  else
    match e with
    | .download _ => st
    | .writeFile _ => if st.invoked then { st with ok := false } else st
    | .runFfmpeg _ => if st.uploaded then { st with ok := false }
                      else { st with invoked := true }
    | .parseDiag => if st.uploaded then { st with ok := false } else st
    | .invokeCodec _ => if st.uploaded then { st with ok := false }
                        else { st with invoked := true }
    | .upload _ _ _ src =>
      if src ∈ st.deletedFiles
          ∨ st.deletedDirs.any (fun d => strHasPre (d ++ "/") src) then
        { st with ok := false }
      else { st with uploaded := true }
    | .getPublicUrl _ => if st.uploaded then st else { st with ok := false }
    | .deleteFile p => { st with deletedFiles := p :: st.deletedFiles }
    | .deleteDir p => { st with deletedDirs := p :: st.deletedDirs }
    | .respond _ => { st with responded := true }

def seqOk (tr : List Ev) : Bool := (tr.foldl evStep scanInit).ok

def keysOf (fs : Fs) : List String := fs.map Prod.fst

/-- Type name of a raised exception, when the outcome is an error. -/
def errTy {α : Type} : Except Exc α → Option String
  | .error e => some e.ty
  | .ok _ => none

/-- Events that invoke the external transcoder or the image-codec library. -/
def isConverterInvocation : Ev → Bool
  | .runFfmpeg _ => true
  | .invokeCodec _ => true
  | _ => false

/-- Dig `data.metadata.temp_files.input_file` out of a response body. -/
def bodyTempInputFile (j : J) : Option J :=
  match jGet2 j "data" "metadata" with
  | some m => jGet2 m "temp_files" "input_file"
  | none => none

/-- A well-formed ebur128 summary. -/
def c2WitnessDiag : List Char :=
  "  I:   -23.0 LUFS\n  Threshold: -33.6 LUFS\n  LRA:    5.9 LU\n  Peak:   -1.2 dBFS".data


/-! ## Claim C2: the loudness mapping -/

/-- The mapping C2 claims: each key carries the float parsed from the first
occurrence of its pattern, `"N/A"` when the pattern is absent. -/
def claimC2Entries (out : List Char) : List (String × Val) :=
  [("integrated_loudness", vOf (reSearch iLit lufsSuf out)),
   ("true_peak", vOf (reSearch peakLit dbfsSuf out)),
   ("loudness_range", vOf (reSearch lraLit luSuf out)),
   ("threshold", vOf (reSearch thLit lufsSuf out))]

/-- Diagnostics on which the claim fails: the `I:` pattern occurs but its
numeral `-` is not a valid float literal, so the Python float() call raises
and the service catch-all leaves every metric `"N/A"`, although the `Peak:`
pattern occurs with a perfectly good number. -/
def c2Diag : List Char := "I: - LUFS Peak: -1.0 dBFS".data

/-- C2 as stated is false: on `c2Diag` the code returns `"N/A"` for
`true_peak` even though `Peak: -1.0 dBFS` occurs in the diagnostics. -/
theorem c2_counterexample :
    loudnessEntries (parseLoudness c2Diag) ≠ claimC2Entries c2Diag ∧
    reSearch peakLit dbfsSuf c2Diag = some ['-', '1', '.', '0'] ∧
    (parseLoudness c2Diag).true_peak = Val.na := by
  refine ⟨by decide, by decide, by decide⟩

/-- C2 amended: provided every matched numeral is a valid Python float
literal, each metric is the number from the first occurrence of its pattern
and `"N/A"` exactly when the pattern is absent (an invalid numeral instead
aborts the parse, leaving that field and all later fields `"N/A"`). -/
theorem c2_amended (out : List Char)
    (h1 : (reSearch iLit lufsSuf out).all pyFloatOk = true)
    (h2 : (reSearch peakLit dbfsSuf out).all pyFloatOk = true)
    (h3 : (reSearch lraLit luSuf out).all pyFloatOk = true)
    (h4 : (reSearch thLit lufsSuf out).all pyFloatOk = true) :
    loudnessEntries (parseLoudness out) = claimC2Entries out := by
  unfold parseLoudness claimC2Entries
  rcases e1 : reSearch iLit lufsSuf out with _ | g1 <;>
    rcases e2 : reSearch peakLit dbfsSuf out with _ | g2 <;>
      rcases e3 : reSearch lraLit luSuf out with _ | g3 <;>
        rcases e4 : reSearch thLit lufsSuf out with _ | g4 <;>
          simp_all [parseStep, loudnessEntries, vOf, Option.all, Bind.bind, Except.bind,
            Loudness.initial]

/-- Witness for `c2_amended` at a concrete ebur128 summary. -/
theorem c2_amended_witness :
    (reSearch iLit lufsSuf c2WitnessDiag).all pyFloatOk = true ∧
    (reSearch peakLit dbfsSuf c2WitnessDiag).all pyFloatOk = true ∧
    (reSearch lraLit luSuf c2WitnessDiag).all pyFloatOk = true ∧
    (reSearch thLit lufsSuf c2WitnessDiag).all pyFloatOk = true ∧
    loudnessEntries (parseLoudness c2WitnessDiag) = claimC2Entries c2WitnessDiag :=
  ⟨by decide, by decide, by decide, by decide,
    c2_amended c2WitnessDiag (by decide) (by decide) (by decide) (by decide)⟩

/-! ## Claim C3: output geometry, bit depth and compression of `compress_exr` -/

/-- C3: `compress_exr` writes exactly one file; its header has
dataWindow = displayWindow = (0,0)–(2047,1023) (a fixed 2048×1024 output
regardless of the input), ZIP compression, and every channel recorded as
16-bit HALF; its pixel data is, for each R/G/B/A channel present in the
input, the channel resized to (1024, 2048) and converted to float16. -/
theorem c3_compress_exr_output {α β : Type} (resizeF : α → Nat → Nat → α)
    (toHalfBytes : α → β) (ip od : String) (inp : ExrInput α) :
    (compress_exr resizeF toHalfBytes ip od inp).length = 1 ∧
    (compress_exr resizeF toHalfBytes ip od inp).map (fun f => f.header) =
      [{ dataWindow := ⟨0, 0, 2047, 1023⟩
         displayWindow := ⟨0, 0, 2047, 1023⟩
         compression := ExrCompression.ZIP
         channels := inp.header.channels.map (fun c => (c.1, PixType.HALF)) }] ∧
    (compress_exr resizeF toHalfBytes ip od inp).map
        (fun f => f.header.channels.all (fun c => decide (c.2 = PixType.HALF))) = [true] ∧
    (compress_exr resizeF toHalfBytes ip od inp).map (fun f => f.pixelData) =
      [(rgbaNames.filter (hasChannel inp.header)).map
        (fun ch => (ch, toHalfBytes (resizeF (inp.channelData ch) 1024 2048)))] := by
  refine ⟨rfl, rfl, ?_, ?_⟩
  · simp [compress_exr, List.all_eq_true]
  · simp [compress_exr, List.map_map, Function.comp]

/-! ## Claim C9: `/convert` status codes -/

/-- C9: the only 400 response of the `/convert` handler is the pre-`try` check of
an empty `convert_supabase_storage_path`; every other outcome is 200 or a
500 JSON error — in particular the nominally-400 `HTTPException`s raised
inside the `try` (file not found / empty download) surface as 500. -/
theorem c9_convert_statuses (csp rsp q u : String) (fo : FfOracle)
    (so : StorOracle) (fr : String → String) :
    ((audioFlow csp rsp q u fo so fr).status = 400 ↔ csp = "") ∧
    ((audioFlow csp rsp q u fo so fr).status = 200 ∨
      (audioFlow csp rsp q u fo so fr).status = 400 ∨
      (audioFlow csp rsp q u fo so fr).status = 500) := by
  by_cases hc : csp = ""
  · simp [audioFlow, hc]
  · rcases hdl : so.downloadRes with e | ct
    · simp [audioFlow, hc, hdl]
    · by_cases hct : ct = ""
      · simp [audioFlow, hc, hdl, hct]
      · rcases hsvc : (audioSvcOf csp ct u q fo).outcome with ex | pd
        · simp [audioFlow, hc, hdl, hct, hsvc]
        · rcases hrd : fsRead pd.1 (audioSvcOf csp ct u q fo).fs with _ | oc
          · simp [audioFlow, hc, hdl, hct, hsvc, hrd]
          · rcases hpe : mp3PathE rsp with e2 | path
            · simp [audioFlow, hc, hdl, hct, hsvc, hrd, hpe]
            · rcases hup : so.uploadRes with e3 | u3
              · simp [audioFlow, hc, hdl, hct, hsvc, hrd, hpe, hup]
              · simp [audioFlow, hc, hdl, hct, hsvc, hrd, hpe, hup]

/-- Witness for `c9_convert_statuses`: the empty-download `HTTPException`
(nominal 400) is reported with status 500, and the empty-path check is the
one 400. -/
theorem c9_convert_statuses_witness :
    (audioFlow "missing.wav" "r.mp3" "8" "u"
        ⟨.ok "", .ok none, ""⟩ ⟨.ok "", .ok (), "p"⟩ id).status = 500 ∧
    (audioFlow "" "r.mp3" "8" "u"
        ⟨.ok "", .ok none, ""⟩ ⟨.ok "", .ok (), "p"⟩ id).status = 400 :=
  ⟨by decide,
    (c9_convert_statuses "" "r.mp3" "8" "u"
      ⟨.ok "", .ok none, ""⟩ ⟨.ok "", .ok (), "p"⟩ id).1.mpr rfl⟩

/-! ## Filesystem algebra -/

theorem find?_key_filter_ne (r p : String) (h : ¬ r = p) (l : Fs) :
    (l.filter (fun q => q.1 ≠ r)).find? (fun q => q.1 = p) =
      l.find? (fun q => q.1 = p) := by
  induction l with
  | nil => rfl
  | cons a t ih =>
    by_cases hr : a.1 = r <;> by_cases hp : a.1 = p <;>
      simp_all [List.filter_cons, List.find?_cons]

theorem find?_key_filter_self (p : String) (l : Fs) :
    (l.filter (fun q => q.1 ≠ p)).find? (fun q => q.1 = p) = none := by
  rw [List.find?_eq_none]
  intro x hx
  rcases List.mem_filter.mp hx with ⟨-, hk⟩
  simpa using of_decide_eq_true hk

theorem fsHas_write (p r c : String) (l : Fs) :
    fsHas p (fsWrite r c l) = (decide (r = p) || fsHas p l) := by
  unfold fsHas fsWrite
  by_cases h : r = p
  · simp [List.find?_cons, h]
  · rw [List.find?_cons_of_neg _ (by simpa using h), find?_key_filter_ne r p h l]
    simp [h]

theorem fsRead_write (p r c : String) (l : Fs) :
    fsRead p (fsWrite r c l) = if r = p then some c else fsRead p l := by
  unfold fsRead fsWrite
  by_cases h : r = p
  · simp [List.find?_cons, h]
  · rw [List.find?_cons_of_neg _ (by simpa using h), find?_key_filter_ne r p h l]
    simp [h]

theorem fsHas_remove (p r : String) (l : Fs) :
    fsHas p (fsRemove r l) = if r = p then false else fsHas p l := by
  unfold fsHas fsRemove
  by_cases h : r = p
  · subst h
    rw [find?_key_filter_self]
    simp
  · rw [find?_key_filter_ne r p h l]
    simp [h]

theorem fsRead_remove (p r : String) (l : Fs) :
    fsRead p (fsRemove r l) = if r = p then none else fsRead p l := by
  unfold fsRead fsRemove
  by_cases h : r = p
  · subst h
    rw [find?_key_filter_self]
    simp
  · rw [find?_key_filter_ne r p h l]
    simp [h]

theorem fsHas_nil (p : String) : fsHas p [] = false := rfl

theorem fsRead_nil (p : String) : fsRead p [] = none := rfl

theorem fsRemove_nil (p : String) : fsRemove p [] = [] := rfl

theorem fsRemove_write_self (p c : String) (l : Fs) :
    fsRemove p (fsWrite p c l) = fsRemove p l := by
  unfold fsRemove fsWrite
  rw [List.filter_cons]
  simp [List.filter_filter]

theorem fsRemove_write_ne {r p : String} (h : ¬ r = p) (c : String) (l : Fs) :
    fsRemove p (fsWrite r c l) = fsWrite r c (fsRemove p l) := by
  unfold fsRemove fsWrite
  rw [List.filter_cons]
  simp only [decide_not, decide_eq_false h, Bool.not_false, if_true,
    List.filter_filter]
  congr 1
  apply List.filter_congr
  intro a _
  rw [Bool.and_comm]

/-! ## String path facts -/

theorem strEq_of_data {a b : String} (h : a.data = b.data) : a = b := by
  cases a; cases b; exact congrArg String.mk h

theorem str_append_cancel_left {a b c : String} (h : a ++ b = a ++ c) : b = c := by
  apply strEq_of_data
  have hd := congrArg String.data h
  rw [String.data_append, String.data_append] at hd
  exact List.append_cancel_left hd

theorem strNe_of_length {a b : String} (h : ¬ a.length = b.length) : ¬ a = b :=
  fun he => h (congrArg String.length he)

/-- The handler staging path and the service staging path never
coincide: `/tmp/{uuid}-{name}` is strictly longer than `/tmp/{name}`. -/
theorem audioInputPath_ne_tempIn (u s : String) :
    ¬ audioInputPath u s = "/tmp/" ++ s := by
  apply strNe_of_length
  simp only [audioInputPath, String.length_append,
    show ("/tmp/" : String).length = 5 from rfl,
    show ("-" : String).length = 1 from rfl]
  omega

/-- The staged input path of the service equals its output path exactly when
the uploaded filename is literally `converted.mp3`. -/
theorem audioOutputPath_eq_inputPath_iff (u fn : String) :
    audioOutputPath u = audioInputPath u fn ↔ fn = "converted.mp3" := by
  constructor
  · intro h
    have hd := congrArg String.data h
    simp only [audioOutputPath, audioInputPath, String.data_append,
      List.append_assoc] at hd
    have h2 := List.append_cancel_left (List.append_cancel_left hd)
    simp only [List.singleton_append] at h2
    injection h2 with h5 h6
    exact strEq_of_data h6.symm
  · intro h
    subst h
    apply strEq_of_data
    simp only [audioOutputPath, audioInputPath, String.data_append, List.append_assoc]
    rfl

/-- Distinct request uuids give distinct converted-output paths. -/
theorem audioOutputPath_injective {u u' : String}
    (h : audioOutputPath u = audioOutputPath u') : u = u' := by
  have hd := congrArg String.data h
  simp only [audioOutputPath, String.data_append, List.append_assoc] at hd
  have h2 := List.append_cancel_left hd
  exact strEq_of_data (List.append_cancel_right h2)

/-! ## Branch characterisations of the audio service -/

theorem audioSvc_unsupported {fn : String} (c u q sr : String) (fo : FfOracle)
    (fs0 : Fs) (hext : asciiLower (pySuffix fn) ∉ supportedAudioFormats) :
    audioSvc fn c u q sr fo fs0 =
      { outcome := .error ⟨"ValueError", "Unsupported file format: "
          ++ asciiLower (pySuffix fn) ++ ". Supported formats are: " ++ audioFormatsJoined⟩
        trace := [], fs := fs0 } := by
  simp [audioSvc, hext]

theorem audioSvc_empty {fn c : String} (u q sr : String) {fo : FfOracle} (fs0 : Fs)
    (hext : asciiLower (pySuffix fn) ∈ supportedAudioFormats) (hc : c.length = 0) :
    audioSvc fn c u q sr fo fs0 =
      { outcome := .error ⟨"ValueError", "Input file is empty"⟩
        trace := [Ev.writeFile (audioInputPath u fn), Ev.deleteFile (audioInputPath u fn)]
        fs := fsRemove (audioInputPath u fn) fs0 } := by
  simp [audioSvc, hext, hc, svcFinally, fsHas_write, fsRemove_write_self]

theorem audioSvc_loudness_err {fn c : String} (u q sr : String) {fo : FfOracle}
    (fs0 : Fs) {e : String}
    (hext : asciiLower (pySuffix fn) ∈ supportedAudioFormats) (hc : ¬ c.length = 0)
    (hld : fo.loudnessRes = .error e) :
    audioSvc fn c u q sr fo fs0 =
      { outcome := .error ⟨"ValueError", "Conversion failed: " ++ e⟩
        trace := [Ev.writeFile (audioInputPath u fn),
                  Ev.runFfmpeg (loudnessArgs (audioInputPath u fn)),
                  Ev.deleteFile (audioInputPath u fn)]
        fs := fsRemove (audioInputPath u fn) fs0 } := by
  simp [audioSvc, hext, hc, hld, svcFinally, fsHas_write, fsRemove_write_self]

theorem audioSvc_convert_err {fn c : String} (u q sr : String) {fo : FfOracle}
    (fs0 : Fs) {diag e : String}
    (hext : asciiLower (pySuffix fn) ∈ supportedAudioFormats) (hc : ¬ c.length = 0)
    (hld : fo.loudnessRes = .ok diag) (hcv : fo.convertRes = .error e) :
    audioSvc fn c u q sr fo fs0 =
      { outcome := .error ⟨"ValueError", "Conversion failed: " ++ e⟩
        trace := [Ev.writeFile (audioInputPath u fn),
                  Ev.runFfmpeg (loudnessArgs (audioInputPath u fn)), Ev.parseDiag,
                  Ev.runFfmpeg (convertCmdArgs (audioInputPath u fn) (audioOutputPath u) q sr),
                  Ev.deleteFile (audioInputPath u fn)]
        fs := fsRemove (audioInputPath u fn) fs0 } := by
  simp [audioSvc, hext, hc, hld, hcv, svcFinally, fsHas_write, fsRemove_write_self]

theorem audioSvc_no_output {fn c : String} (u q sr : String) {fo : FfOracle}
    (fs0 : Fs) {diag : String}
    (hext : asciiLower (pySuffix fn) ∈ supportedAudioFormats) (hc : ¬ c.length = 0)
    (hld : fo.loudnessRes = .ok diag) (hcv : fo.convertRes = .ok none) :
    audioSvc fn c u q sr fo fs0 =
      { outcome := .error ⟨"ValueError", "Output file was not created"⟩
        trace := [Ev.writeFile (audioInputPath u fn),
                  Ev.runFfmpeg (loudnessArgs (audioInputPath u fn)), Ev.parseDiag,
                  Ev.runFfmpeg (convertCmdArgs (audioInputPath u fn) (audioOutputPath u) q sr),
                  Ev.deleteFile (audioInputPath u fn)]
        fs := fsRemove (audioInputPath u fn) fs0 } := by
  simp [audioSvc, hext, hc, hld, hcv, svcFinally, fsHas_write, fsRemove_write_self]

theorem audioSvc_output_empty {fn c : String} (u q sr : String) {fo : FfOracle}
    (fs0 : Fs) {diag oc : String}
    (hext : asciiLower (pySuffix fn) ∈ supportedAudioFormats) (hc : ¬ c.length = 0)
    (hld : fo.loudnessRes = .ok diag) (hcv : fo.convertRes = .ok (some oc))
    (hoc : oc.length = 0) :
    audioSvc fn c u q sr fo fs0 =
      { outcome := .error ⟨"ValueError", "Output file is empty"⟩
        trace := [Ev.writeFile (audioInputPath u fn),
                  Ev.runFfmpeg (loudnessArgs (audioInputPath u fn)), Ev.parseDiag,
                  Ev.runFfmpeg (convertCmdArgs (audioInputPath u fn) (audioOutputPath u) q sr),
                  Ev.deleteFile (audioInputPath u fn)]
        fs := fsRemove (audioInputPath u fn)
          (fsWrite (audioOutputPath u) oc (fsWrite (audioInputPath u fn) c fs0)) } := by
  simp [audioSvc, hext, hc, hld, hcv, hoc, svcFinally, fsHas_write]

theorem audioSvc_verify_fail {fn c : String} (u q sr : String) {fo : FfOracle}
    (fs0 : Fs) {diag oc : String}
    (hext : asciiLower (pySuffix fn) ∈ supportedAudioFormats) (hc : ¬ c.length = 0)
    (hld : fo.loudnessRes = .ok diag) (hcv : fo.convertRes = .ok (some oc))
    (hoc : ¬ oc.length = 0) (hv : ¬ fo.verifyStderr = "") :
    audioSvc fn c u q sr fo fs0 =
      { outcome := .error ⟨"ValueError", "Generated MP3 file is invalid or corrupted"⟩
        trace := [Ev.writeFile (audioInputPath u fn),
                  Ev.runFfmpeg (loudnessArgs (audioInputPath u fn)), Ev.parseDiag,
                  Ev.runFfmpeg (convertCmdArgs (audioInputPath u fn) (audioOutputPath u) q sr),
                  Ev.runFfmpeg (verifyCmdArgs (audioOutputPath u)),
                  Ev.deleteFile (audioInputPath u fn)]
        fs := fsRemove (audioInputPath u fn)
          (fsWrite (audioOutputPath u) oc (fsWrite (audioInputPath u fn) c fs0)) } := by
  simp [audioSvc, hext, hc, hld, hcv, hoc, hv, svcFinally, fsHas_write]

theorem audioSvc_success {fn c : String} (u q sr : String) {fo : FfOracle}
    (fs0 : Fs) {diag oc : String}
    (hext : asciiLower (pySuffix fn) ∈ supportedAudioFormats) (hc : ¬ c.length = 0)
    (hld : fo.loudnessRes = .ok diag) (hcv : fo.convertRes = .ok (some oc))
    (hoc : ¬ oc.length = 0) (hv : fo.verifyStderr = "") :
    audioSvc fn c u q sr fo fs0 =
      { outcome := .ok (audioOutputPath u, parseLoudness diag.data)
        trace := [Ev.writeFile (audioInputPath u fn),
                  Ev.runFfmpeg (loudnessArgs (audioInputPath u fn)), Ev.parseDiag,
                  Ev.runFfmpeg (convertCmdArgs (audioInputPath u fn) (audioOutputPath u) q sr),
                  Ev.runFfmpeg (verifyCmdArgs (audioOutputPath u)),
                  Ev.deleteFile (audioInputPath u fn)]
        fs := fsRemove (audioInputPath u fn)
          (fsWrite (audioOutputPath u) oc (fsWrite (audioInputPath u fn) c fs0)) } := by
  simp [audioSvc, hext, hc, hld, hcv, hoc, hv, svcFinally, fsHas_write]

/-! ## Key-set reasoning over the scratch filesystem -/

theorem mem_keys_remove {x r : String} {l : Fs} :
    x ∈ keysOf (fsRemove r l) ↔ x ∈ keysOf l ∧ ¬ x = r := by
  unfold keysOf fsRemove
  simp only [List.mem_map, List.mem_filter]
  constructor
  · rintro ⟨a, ⟨ha, hne⟩, rfl⟩
    exact ⟨⟨a, ha, rfl⟩, by simpa using hne⟩
  · rintro ⟨⟨a, ha, rfl⟩, hne⟩
    exact ⟨a, ⟨ha, by simpa using hne⟩, rfl⟩

theorem mem_keys_write {x r c : String} {l : Fs} :
    x ∈ keysOf (fsWrite r c l) ↔ x = r ∨ (x ∈ keysOf l ∧ ¬ x = r) := by
  unfold keysOf fsWrite
  simp only [List.mem_map, List.mem_cons]
  constructor
  · rintro ⟨a, ha, rfl⟩
    rcases ha with rfl | ha
    · exact Or.inl rfl
    · rcases List.mem_filter.mp ha with ⟨hm, hne⟩
      exact Or.inr ⟨⟨a, hm, rfl⟩, by simpa using hne⟩
  · rintro (h | ⟨⟨a, ha, rfl⟩, hne⟩)
    · exact ⟨(r, c), Or.inl rfl, h.symm⟩
    · exact ⟨a, Or.inr (List.mem_filter.mpr ⟨ha, by simpa using hne⟩), rfl⟩

theorem mem_keys_rmtree {x d : String} {l : Fs} :
    x ∈ keysOf (fsRmtree d l) ↔ x ∈ keysOf l ∧ strHasPre (d ++ "/") x = false := by
  unfold keysOf fsRmtree
  simp only [List.mem_map, List.mem_filter]
  constructor
  · rintro ⟨a, ⟨ha, hne⟩, rfl⟩
    exact ⟨⟨a, ha, rfl⟩, by simpa using hne⟩
  · rintro ⟨⟨a, ha, rfl⟩, hne⟩
    exact ⟨a, ⟨ha, by simpa using hne⟩, rfl⟩

theorem keys_nil : keysOf [] = [] := rfl

theorem eq_nil_of_keys_nil {l : Fs} (h : ∀ x, x ∉ keysOf l) : l = [] := by
  cases l with
  | nil => rfl
  | cons a t => exact absurd (by simp [keysOf] : a.1 ∈ keysOf (a :: t)) (h a.1)

theorem fsRemove_of_not_has {p : String} {l : Fs} (h : fsHas p l = false) :
    fsRemove p l = l := by
  unfold fsHas at h
  have hn : List.find? (fun q => decide (q.1 = p)) l = none :=
    Option.not_isSome_iff_eq_none.mp (by simp [h])
  have hall := List.find?_eq_none.mp hn
  unfold fsRemove
  apply List.filter_eq_self.mpr
  intro a ha
  have := hall a ha
  simpa using this

/-- The cleanup block of the handler removes the staged download and, when known,
the converted file; existence guards make this plain removal. -/
theorem mainFinally_fst (tempIn : String) (cp : Option String) (fs : Fs) :
    (mainFinally tempIn cp fs).1 =
      (match cp with
       | none => fsRemove tempIn fs
       | some pp => fsRemove pp (fsRemove tempIn fs)) := by
  unfold mainFinally
  rcases cp with _ | pp
  · by_cases h1 : fsHas tempIn fs
    · simp [h1]
    · simp [h1, fsRemove_of_not_has (by simpa using h1)]
  · by_cases h1 : fsHas tempIn fs
    · simp only [h1, if_true]
      by_cases h2 : fsHas pp (fsRemove tempIn fs)
      · simp [h2]
      · simp [h2, fsRemove_of_not_has (by simpa using h2)]
    · have he : fsRemove tempIn fs = fs := fsRemove_of_not_has (by simpa using h1)
      simp only [h1, Bool.false_eq_true, if_false]
      by_cases h2 : fsHas pp fs
      · simp [h2, he]
      · simp [h2, he, fsRemove_of_not_has (by simpa using h2)]

/-- A string always starts with its own leading append component. -/
theorem strHasPre_append (d t : String) : strHasPre d (d ++ t) = true := by
  unfold strHasPre
  rw [String.data_append]
  simp [List.take_left]

theorem hdriOutputPath_pre (u fn : String) :
    strHasPre (hdriOutputDir u ++ "/") (hdriOutputPath u fn) = true := by
  have : hdriOutputPath u fn = (hdriOutputDir u ++ "/")
      ++ (pySplitextStem (pyBasename (hdriInputPath u fn)) ++ "_2K_ZIP.exr") := by
    simp [hdriOutputPath, String.append_assoc]
  rw [this]
  exact strHasPre_append _ _

/-! ## Final scratch-file contents of the flows (claim C1) -/

theorem keysSub_leak (tempIn inFn outFn oc ct2 ct : String) :
    keysOf (fsRemove tempIn (fsRemove inFn
      (fsWrite outFn oc (fsWrite inFn ct2 (fsWrite tempIn ct []))))) ⊆ [outFn] := by
  intro x hx
  simp only [mem_keys_remove, mem_keys_write, keys_nil, List.not_mem_nil,
    List.mem_singleton] at hx ⊢
  tauto

theorem keysSub_noleak (tempIn inFn ct out : String) :
    keysOf (fsRemove tempIn (fsRemove inFn (fsWrite tempIn ct []))) ⊆ [out] := by
  intro x hx
  simp only [mem_keys_remove, mem_keys_write, keys_nil, List.not_mem_nil] at hx
  tauto

theorem fs_ok_nil (tempIn inFn outFn oc ct2 ct : String) :
    fsRemove outFn (fsRemove tempIn (fsRemove inFn
      (fsWrite outFn oc (fsWrite inFn ct2 (fsWrite tempIn ct []))))) = [] := by
  apply eq_nil_of_keys_nil
  intro x
  simp only [mem_keys_remove, mem_keys_write, keys_nil, List.not_mem_nil]
  tauto

/-- Per-branch analysis of what `/convert` leaves in `/tmp`: at most the
converted-output file of the service, and nothing at all on a 200 response. -/
theorem audioFlow_fs (csp rsp q u : String) (fo : FfOracle) (so : StorOracle)
    (fr : String → String) :
    keysOf (audioFlow csp rsp q u fo so fr).fs ⊆ [audioOutputPath u] ∧
    ((audioFlow csp rsp q u fo so fr).status = 200 →
      (audioFlow csp rsp q u fo so fr).fs = []) := by
  by_cases hc : csp = ""
  · simp [audioFlow, hc, keysOf]
  · rcases hdl : so.downloadRes with e | ct
    · simp [audioFlow, hc, hdl, keysOf]
    · by_cases hct : ct = ""
      · simp [audioFlow, hc, hdl, hct, keysOf]
      · have hct' : ¬ ct.length = 0 := by
          intro h0
          exact hct (by
            cases ct with
            | mk l => cases l with
              | nil => rfl
              | cons a t => simp [String.length] at h0)
        by_cases hext : asciiLower (pySuffix (pathName csp)) ∈ supportedAudioFormats
        · rcases hld : fo.loudnessRes with e | diag
          · have hsvc := audioSvc_loudness_err u q defaultSamplerate
              (fsWrite (tempInOf csp) ct []) hext hct' hld
            simp [audioFlow, audioSvcOf, hc, hdl, hct, hsvc, mainFinally_fst,
              keysSub_noleak, fsRemove_write_self]
          · rcases hcv : fo.convertRes with e | ocOpt
            · have hsvc := audioSvc_convert_err u q defaultSamplerate
                (fsWrite (tempInOf csp) ct []) hext hct' hld hcv
              simp [audioFlow, audioSvcOf, hc, hdl, hct, hsvc, mainFinally_fst,
                keysSub_noleak, fsRemove_write_self]
            · rcases ocOpt with _ | oc
              · have hsvc := audioSvc_no_output u q defaultSamplerate
                  (fsWrite (tempInOf csp) ct []) hext hct' hld hcv
                simp [audioFlow, audioSvcOf, hc, hdl, hct, hsvc, mainFinally_fst,
                  keysSub_noleak, fsRemove_write_self]
              · by_cases hoc : oc.length = 0
                · have hsvc := audioSvc_output_empty u q defaultSamplerate
                    (fsWrite (tempInOf csp) ct []) hext hct' hld hcv hoc
                  simp [audioFlow, audioSvcOf, hc, hdl, hct, hsvc, mainFinally_fst,
                    keysSub_leak]
                · by_cases hv : fo.verifyStderr = ""
                  · -- service success; the handler then opens, uploads, cleans up
                    have hsvc := audioSvc_success u q defaultSamplerate
                      (fsWrite (tempInOf csp) ct []) hext hct' hld hcv hoc hv
                    by_cases hio : audioInputPath u (pathName csp) = audioOutputPath u
                    · -- staged input path collided with the output: open fails (500)
                      simp [audioFlow, audioSvcOf, hc, hdl, hct, hsvc, mainFinally_fst,
                        fsRead_remove, fsRead_write, hio, keysSub_leak,
                        fs_ok_nil, keys_nil, List.nil_subset]
                    · rcases hpe : mp3PathE rsp with e2 | path
                      · simp [audioFlow, audioSvcOf, hc, hdl, hct, hsvc, mainFinally_fst,
                          fsRead_remove, fsRead_write, hio, hpe, keysSub_leak, fs_ok_nil, keys_nil, List.nil_subset]
                      · rcases hup : so.uploadRes with e3 | u3
                        · simp [audioFlow, audioSvcOf, hc, hdl, hct, hsvc, mainFinally_fst,
                            fsRead_remove, fsRead_write, hio, hpe, hup, keysSub_leak,
                            fs_ok_nil, keys_nil, List.nil_subset]
                        · simp [audioFlow, audioSvcOf, hc, hdl, hct, hsvc, mainFinally_fst,
                            fsRead_remove, fsRead_write, hio, hpe, hup, keysSub_leak,
                            fs_ok_nil, keys_nil, List.nil_subset]
                  · have hsvc := audioSvc_verify_fail u q defaultSamplerate
                      (fsWrite (tempInOf csp) ct []) hext hct' hld hcv hoc hv
                    simp [audioFlow, audioSvcOf, hc, hdl, hct, hsvc, mainFinally_fst,
                      keysSub_leak]
        · have hsvc := audioSvc_unsupported ct u q defaultSamplerate fo
            (fsWrite (tempInOf csp) ct []) hext
          simp [audioFlow, audioSvcOf, hc, hdl, hct, hsvc, mainFinally_fst,
            fsRemove_write_self, fsRemove_nil, keysOf, List.nil_subset]

theorem hdri_fs_nil (u fn oc c : String) :
    fsRmtree (hdriOutputDir u) (fsRemove (hdriInputPath u fn)
      (fsWrite (hdriOutputPath u fn) oc (fsWrite (hdriInputPath u fn) c []))) = [] := by
  apply eq_nil_of_keys_nil
  intro x
  rw [mem_keys_rmtree]
  rintro ⟨hx, hpre⟩
  rw [mem_keys_remove] at hx
  rcases hx with ⟨hx, hni⟩
  rw [mem_keys_write] at hx
  rcases hx with h | ⟨hx, -⟩
  · rw [h, hdriOutputPath_pre] at hpre
    simp at hpre
  · rw [mem_keys_write] at hx
    rcases hx with h | ⟨hx, -⟩
    · exact hni h
    · simp [keysOf] at hx

/-- The HDRI endpoint deletes everything it stages, on every exit path. -/
theorem hdriFlow_fs (fn c rsp u : String) (co : CodecOracle) (so : StorOracle)
    (ratioFmt : Nat → Nat → String) :
    (hdriFlow fn c rsp u co so ratioFmt).fs = [] ∧
    (hdriFlow fn c rsp u co so ratioFmt).dirs = [] := by
  by_cases hext : asciiLower (pySuffix fn) ∈ hdriSupportedFormats
  · by_cases hc0 : c.length = 0
    · simp [hdriFlow, hext, hc0, fsRemove_write_self, fsRemove_nil]
    · rcases hcp : co.compressRes with e | oc
      · simp [hdriFlow, hext, hc0, hcp, fsRemove_write_self, fsRemove_nil, fsRmtree]
      · rcases hup : so.uploadRes with e | u3
        · simp [hdriFlow, hext, hc0, hcp, hup, hdri_fs_nil]
        · simp [hdriFlow, hext, hc0, hcp, hup, hdri_fs_nil]
  · simp [hdriFlow, hext]

/-- C1 fails on the audio path: with a valid input whose converted output
flunks the MP3 verification step, the request ends (status 500) with the
converted file `/tmp/u0-converted.mp3` still on disk — the service finally
block removes only its input, and the handler never learns the output
path. -/
theorem c1_counterexample :
    (audioFlow "dir/song.wav" "res/out.mp3" "8" "u0"
        ⟨.ok "diag", .ok (some "MP3BYTES"), "invalid stream"⟩
        ⟨.ok "WAV", .ok (), "http://pub"⟩ id).fs
      = [("/tmp/u0-converted.mp3", "MP3BYTES")] ∧
    (audioFlow "dir/song.wav" "res/out.mp3" "8" "u0"
        ⟨.ok "diag", .ok (some "MP3BYTES"), "invalid stream"⟩
        ⟨.ok "WAV", .ok (), "http://pub"⟩ id).status = 500 := by
  exact ⟨by decide, by decide⟩

/-- C1 amended: every staged temporary file is deleted on every exit path,
except that the converted output file of the audio service may survive (it is the
only possible leftover) when the service fails after the transcoder created
it; on a 200 response nothing survives, and the HDRI endpoint always deletes
its staged input, scratch directory and outputs. -/
theorem c1_amended (csp rsp q u : String) (fo : FfOracle) (so : StorOracle)
    (fr : String → String) (fn c rsp2 u2 : String) (co : CodecOracle)
    (so2 : StorOracle) (ratioFmt : Nat → Nat → String) :
    keysOf (audioFlow csp rsp q u fo so fr).fs ⊆ [audioOutputPath u] ∧
    ((audioFlow csp rsp q u fo so fr).status = 200 →
      (audioFlow csp rsp q u fo so fr).fs = []) ∧
    (hdriFlow fn c rsp2 u2 co so2 ratioFmt).fs = [] ∧
    (hdriFlow fn c rsp2 u2 co so2 ratioFmt).dirs = [] :=
  ⟨(audioFlow_fs csp rsp q u fo so fr).1, (audioFlow_fs csp rsp q u fo so fr).2,
    (hdriFlow_fs fn c rsp2 u2 co so2 ratioFmt).1,
    (hdriFlow_fs fn c rsp2 u2 co so2 ratioFmt).2⟩

/-- Witness for `c1_amended` at concrete successful requests. -/
theorem c1_amended_witness :
    (audioFlow "dir/song.wav" "res/out.wav" "8" "u0"
        ⟨.ok "d", .ok (some "M"), ""⟩ ⟨.ok "W", .ok (), "p"⟩ id).fs = [] ∧
    (hdriFlow "env.exr" "DATA" "res/env.exr" "u0"
        ⟨.ok "E"⟩ ⟨.ok "W", .ok (), "p"⟩ (fun _ _ => "99.9%")).fs = [] :=
  ⟨(c1_amended "dir/song.wav" "res/out.wav" "8" "u0"
      ⟨.ok "d", .ok (some "M"), ""⟩ ⟨.ok "W", .ok (), "p"⟩ id
      "env.exr" "DATA" "res/env.exr" "u0"
      ⟨.ok "E"⟩ ⟨.ok "W", .ok (), "p"⟩ (fun _ _ => "99.9%")).2.1 (by decide),
   (c1_amended "dir/song.wav" "res/out.wav" "8" "u0"
      ⟨.ok "d", .ok (some "M"), ""⟩ ⟨.ok "W", .ok (), "p"⟩ id
      "env.exr" "DATA" "res/env.exr" "u0"
      ⟨.ok "E"⟩ ⟨.ok "W", .ok (), "p"⟩ (fun _ _ => "99.9%")).2.2.1⟩

/-! ## Claim C4: input validation precedes any converter invocation -/

/-- C4: a filename whose lowercased extension is outside the supported set
(the twelve audio extensions, `.exr` for HDRI), or a staged input of size 0,
makes the service fail (a raised `ValueError`, or the 400 response of the
HDRI handler) without the transcoder or codec ever being invoked. -/
theorem c4_validation (fn c u q sr : String) (fo : FfOracle) (fs0 : Fs)
    (fn2 c2 rsp u2 : String) (co : CodecOracle) (so : StorOracle)
    (rf : Nat → Nat → String) :
    ((asciiLower (pySuffix fn) ∉ supportedAudioFormats ∨ c.length = 0) →
      errTy (audioSvc fn c u q sr fo fs0).outcome = some "ValueError" ∧
      (audioSvc fn c u q sr fo fs0).trace.all
        (fun e => !isConverterInvocation e) = true) ∧
    (asciiLower (pySuffix fn2) ∉ hdriSupportedFormats →
      (hdriFlow fn2 c2 rsp u2 co so rf).status = 400 ∧
      (hdriFlow fn2 c2 rsp u2 co so rf).trace.all
        (fun e => !isConverterInvocation e) = true) ∧
    (c2.length = 0 →
      ((hdriFlow fn2 c2 rsp u2 co so rf).status = 400 ∨
        (hdriFlow fn2 c2 rsp u2 co so rf).status = 500) ∧
      (hdriFlow fn2 c2 rsp u2 co so rf).trace.all
        (fun e => !isConverterInvocation e) = true) := by
  refine ⟨?_, ?_, ?_⟩
  · intro h
    by_cases hext : asciiLower (pySuffix fn) ∈ supportedAudioFormats
    · rcases h with h | h
      · exact absurd hext h
      · rw [audioSvc_empty u q sr fs0 hext h]
        simp [errTy, isConverterInvocation]
    · rw [audioSvc_unsupported c u q sr fo fs0 hext]
      simp [errTy]
  · intro hext
    simp [hdriFlow, hext, isConverterInvocation]
  · intro hc0
    by_cases hext : asciiLower (pySuffix fn2) ∈ hdriSupportedFormats
    · simp [hdriFlow, hext, hc0, isConverterInvocation]
    · simp [hdriFlow, hext, isConverterInvocation]

/-- Witness for `c4_validation`: a `.txt` upload and an empty `.txt` HDRI
upload are rejected with no converter invocation. -/
theorem c4_validation_witness :
    (errTy (audioSvc "notes.txt" "DATA" "u0" "8" "44100"
        ⟨.ok "d", .ok (some "M"), ""⟩ []).outcome = some "ValueError" ∧
      (audioSvc "notes.txt" "DATA" "u0" "8" "44100"
        ⟨.ok "d", .ok (some "M"), ""⟩ []).trace.all
          (fun e => !isConverterInvocation e) = true) ∧
    ((hdriFlow "x.txt" "" "r" "u0" ⟨.ok "E"⟩ ⟨.ok "W", .ok (), "p"⟩
        (fun _ _ => "")).status = 400 ∧
      (hdriFlow "x.txt" "" "r" "u0" ⟨.ok "E"⟩ ⟨.ok "W", .ok (), "p"⟩
        (fun _ _ => "")).trace.all (fun e => !isConverterInvocation e) = true) :=
  ⟨(c4_validation "notes.txt" "DATA" "u0" "8" "44100" ⟨.ok "d", .ok (some "M"), ""⟩ []
      "x.txt" "" "r" "u0" ⟨.ok "E"⟩ ⟨.ok "W", .ok (), "p"⟩ (fun _ _ => "")).1
        (Or.inl (by decide)),
   (c4_validation "notes.txt" "DATA" "u0" "8" "44100" ⟨.ok "d", .ok (some "M"), ""⟩ []
      "x.txt" "" "r" "u0" ⟨.ok "E"⟩ ⟨.ok "W", .ok (), "p"⟩ (fun _ _ => "")).2.1
        (by decide)⟩

/-! ## Claim C8: the transcoder command line -/

/-- C8: whenever the service reaches transcoding, it runs the external
transcoder with `-codec:a libmp3lame`, quality `-q:a` from the
`audio_quality` parameter, `-ar` from the `samplerate` parameter (whose
default is `44100`), `-ac 2`, `-b:a 96k` with `-minrate 96k` and
`-maxrate 256k`, writing to the per-request output path
`/tmp/{uuid}-converted.mp3`, which is distinct for distinct uuids. -/
theorem c8_transcoder_args (fn c u q sr : String) (fo : FfOracle) (fs0 : Fs)
    {diag : String}
    (hext : asciiLower (pySuffix fn) ∈ supportedAudioFormats)
    (hc : ¬ c.length = 0) (hld : fo.loudnessRes = .ok diag) :
    Ev.runFfmpeg (convertCmdArgs (audioInputPath u fn) (audioOutputPath u) q sr)
      ∈ (audioSvc fn c u q sr fo fs0).trace ∧
    List.IsInfix ["-codec:a", "libmp3lame"]
      (convertCmdArgs (audioInputPath u fn) (audioOutputPath u) q sr) ∧
    List.IsInfix ["-q:a", q]
      (convertCmdArgs (audioInputPath u fn) (audioOutputPath u) q sr) ∧
    List.IsInfix ["-ar", sr]
      (convertCmdArgs (audioInputPath u fn) (audioOutputPath u) q sr) ∧
    List.IsInfix ["-ac", "2"]
      (convertCmdArgs (audioInputPath u fn) (audioOutputPath u) q sr) ∧
    List.IsInfix ["-b:a", "96k"]
      (convertCmdArgs (audioInputPath u fn) (audioOutputPath u) q sr) ∧
    List.IsInfix ["-minrate", "96k"]
      (convertCmdArgs (audioInputPath u fn) (audioOutputPath u) q sr) ∧
    List.IsInfix ["-maxrate", "256k"]
      (convertCmdArgs (audioInputPath u fn) (audioOutputPath u) q sr) ∧
    (convertCmdArgs (audioInputPath u fn) (audioOutputPath u) q sr).getLast?
      = some (audioOutputPath u) ∧
    defaultSamplerate = "44100" ∧
    (∀ u', audioOutputPath u = audioOutputPath u' → u = u') := by
  refine ⟨?_,
    ⟨["ffmpeg", "-y", "-i", audioInputPath u fn, "-map", "0:a:0"],
     ["-q:a", q, "-ar", sr, "-ac", "2", "-compression_level", "0",
      "-map_metadata", "0", "-id3v2_version", "3", "-b:a", "96k", "-minrate",
      "96k", "-maxrate", "256k", "-bufsize", "512k", audioOutputPath u], rfl⟩,
    ⟨["ffmpeg", "-y", "-i", audioInputPath u fn, "-map", "0:a:0", "-codec:a",
      "libmp3lame"],
     ["-ar", sr, "-ac", "2", "-compression_level", "0", "-map_metadata", "0",
      "-id3v2_version", "3", "-b:a", "96k", "-minrate", "96k", "-maxrate",
      "256k", "-bufsize", "512k", audioOutputPath u], rfl⟩,
    ⟨["ffmpeg", "-y", "-i", audioInputPath u fn, "-map", "0:a:0", "-codec:a",
      "libmp3lame", "-q:a", q],
     ["-ac", "2", "-compression_level", "0", "-map_metadata", "0",
      "-id3v2_version", "3", "-b:a", "96k", "-minrate", "96k", "-maxrate",
      "256k", "-bufsize", "512k", audioOutputPath u], rfl⟩,
    ⟨["ffmpeg", "-y", "-i", audioInputPath u fn, "-map", "0:a:0", "-codec:a",
      "libmp3lame", "-q:a", q, "-ar", sr],
     ["-compression_level", "0", "-map_metadata", "0", "-id3v2_version", "3",
      "-b:a", "96k", "-minrate", "96k", "-maxrate", "256k", "-bufsize", "512k",
      audioOutputPath u], rfl⟩,
    ⟨["ffmpeg", "-y", "-i", audioInputPath u fn, "-map", "0:a:0", "-codec:a",
      "libmp3lame", "-q:a", q, "-ar", sr, "-ac", "2", "-compression_level",
      "0", "-map_metadata", "0", "-id3v2_version", "3"],
     ["-minrate", "96k", "-maxrate", "256k", "-bufsize", "512k",
      audioOutputPath u], rfl⟩,
    ⟨["ffmpeg", "-y", "-i", audioInputPath u fn, "-map", "0:a:0", "-codec:a",
      "libmp3lame", "-q:a", q, "-ar", sr, "-ac", "2", "-compression_level",
      "0", "-map_metadata", "0", "-id3v2_version", "3", "-b:a", "96k"],
     ["-maxrate", "256k", "-bufsize", "512k", audioOutputPath u], rfl⟩,
    ⟨["ffmpeg", "-y", "-i", audioInputPath u fn, "-map", "0:a:0", "-codec:a",
      "libmp3lame", "-q:a", q, "-ar", sr, "-ac", "2", "-compression_level",
      "0", "-map_metadata", "0", "-id3v2_version", "3", "-b:a", "96k",
      "-minrate", "96k"],
     ["-bufsize", "512k", audioOutputPath u], rfl⟩,
    rfl, rfl, fun _ h => audioOutputPath_injective h⟩
  rcases hcv : fo.convertRes with e | ocOpt
  · rw [audioSvc_convert_err u q sr fs0 hext hc hld hcv]; simp
  · rcases ocOpt with _ | oc
    · rw [audioSvc_no_output u q sr fs0 hext hc hld hcv]; simp
    · by_cases hoc : oc.length = 0
      · rw [audioSvc_output_empty u q sr fs0 hext hc hld hcv hoc]; simp
      · by_cases hv : fo.verifyStderr = ""
        · rw [audioSvc_success u q sr fs0 hext hc hld hcv hoc hv]; simp
        · rw [audioSvc_verify_fail u q sr fs0 hext hc hld hcv hoc hv]; simp

/-- Witness for `c8_transcoder_args` at a concrete request. -/
theorem c8_transcoder_args_witness :
    Ev.runFfmpeg (convertCmdArgs (audioInputPath "u0" "song.wav")
        (audioOutputPath "u0") "8" "44100")
      ∈ (audioSvc "song.wav" "DATA" "u0" "8" "44100"
          ⟨.ok "d", .ok (some "M"), ""⟩ []).trace ∧
    defaultSamplerate = "44100" :=
  ⟨(c8_transcoder_args "song.wav" "DATA" "u0" "8" "44100"
      ⟨.ok "d", .ok (some "M"), ""⟩ [] (by decide) (by decide) rfl).1,
   (c8_transcoder_args "song.wav" "DATA" "u0" "8" "44100"
      ⟨.ok "d", .ok (some "M"), ""⟩ [] (by decide) (by decide) rfl).2.2.2.2.2.2.2.2.2.1⟩

/-! ## Claim C5: all media transformation is delegated -/

theorem upload_not_mem_mainFinally (b p cc src tempIn : String)
    (cp : Option String) (fs : Fs) :
    Ev.upload b p cc src ∉ (mainFinally tempIn cp fs).2 := by
  unfold mainFinally
  rcases cp with _ | pp
  · by_cases h1 : fsHas tempIn fs <;> simp [h1]
  · by_cases h1 : fsHas tempIn fs <;>
      by_cases h2 : fsHas pp (fsRemove tempIn fs) <;>
        by_cases h3 : fsHas pp fs <;> simp [h1, h2, h3]

/-- Uploaded audio bytes are exactly the transcoder output: any upload
event in the `/convert` trace carries the bytes the conversion subprocess
produced, unmodified. -/
theorem audioFlow_upload_content (csp rsp q u : String) (fo : FfOracle)
    (so : StorOracle) (fr : String → String) :
    ∀ b p cc src, Ev.upload b p cc src ∈ (audioFlow csp rsp q u fo so fr).trace →
      fo.convertRes = .ok (some cc) := by
  by_cases hc : csp = ""
  · simp [audioFlow, hc]
  · rcases hdl : so.downloadRes with e | ct
    · simp [audioFlow, hc, hdl]
    · by_cases hct : ct = ""
      · simp [audioFlow, hc, hdl, hct]
      · have hct' : ¬ ct.length = 0 := by
          intro h0
          exact hct (by
            cases ct with
            | mk l => cases l with
              | nil => rfl
              | cons a t => simp [String.length] at h0)
        by_cases hext : asciiLower (pySuffix (pathName csp)) ∈ supportedAudioFormats
        · rcases hld : fo.loudnessRes with e | diag
          · have hsvc := audioSvc_loudness_err u q defaultSamplerate
              (fsWrite (tempInOf csp) ct []) hext hct' hld
            simp [audioFlow, audioSvcOf, hc, hdl, hct, hsvc, upload_not_mem_mainFinally]
          · rcases hcv : fo.convertRes with e | ocOpt
            · have hsvc := audioSvc_convert_err u q defaultSamplerate
                (fsWrite (tempInOf csp) ct []) hext hct' hld hcv
              simp [audioFlow, audioSvcOf, hc, hdl, hct, hsvc, upload_not_mem_mainFinally]
            · rcases ocOpt with _ | oc
              · have hsvc := audioSvc_no_output u q defaultSamplerate
                  (fsWrite (tempInOf csp) ct []) hext hct' hld hcv
                simp [audioFlow, audioSvcOf, hc, hdl, hct, hsvc, upload_not_mem_mainFinally]
              · by_cases hoc : oc.length = 0
                · have hsvc := audioSvc_output_empty u q defaultSamplerate
                    (fsWrite (tempInOf csp) ct []) hext hct' hld hcv hoc
                  simp [audioFlow, audioSvcOf, hc, hdl, hct, hsvc, upload_not_mem_mainFinally]
                · by_cases hv : fo.verifyStderr = ""
                  · have hsvc := audioSvc_success u q defaultSamplerate
                      (fsWrite (tempInOf csp) ct []) hext hct' hld hcv hoc hv
                    by_cases hio : audioInputPath u (pathName csp) = audioOutputPath u
                    · simp [audioFlow, audioSvcOf, hc, hdl, hct, hsvc,
                        fsRead_remove, fsRead_write, hio, upload_not_mem_mainFinally]
                    · rcases hpe : mp3PathE rsp with e2 | path
                      · simp [audioFlow, audioSvcOf, hc, hdl, hct, hsvc,
                          fsRead_remove, fsRead_write, hio, hpe,
                          upload_not_mem_mainFinally]
                      · rcases hup : so.uploadRes with e3 | u3
                        · intro b p cc src h
                          simp [audioFlow, audioSvcOf, hc, hdl, hct, hsvc,
                            fsRead_remove, fsRead_write, hio, hpe, hup,
                            upload_not_mem_mainFinally] at h
                          rcases h with ⟨-, -, h3, -⟩
                          subst h3
                          simp [hcv]
                        · intro b p cc src h
                          simp [audioFlow, audioSvcOf, hc, hdl, hct, hsvc,
                            fsRead_remove, fsRead_write, hio, hpe, hup,
                            upload_not_mem_mainFinally] at h
                          rcases h with ⟨-, -, h3, -⟩
                          subst h3
                          simp [hcv]
                  · have hsvc := audioSvc_verify_fail u q defaultSamplerate
                      (fsWrite (tempInOf csp) ct []) hext hct' hld hcv hoc hv
                    simp [audioFlow, audioSvcOf, hc, hdl, hct, hsvc,
                      upload_not_mem_mainFinally]
        · have hsvc := audioSvc_unsupported ct u q defaultSamplerate fo
            (fsWrite (tempInOf csp) ct []) hext
          simp [audioFlow, audioSvcOf, hc, hdl, hct, hsvc, upload_not_mem_mainFinally]

/-- Uploaded HDRI bytes are exactly what the codec library produced. -/
theorem hdriFlow_upload_content (fn c rsp u : String) (co : CodecOracle)
    (so : StorOracle) (rf : Nat → Nat → String) :
    ∀ b p cc src, Ev.upload b p cc src ∈ (hdriFlow fn c rsp u co so rf).trace →
      co.compressRes = .ok cc := by
  by_cases hext : asciiLower (pySuffix fn) ∈ hdriSupportedFormats
  · by_cases hc0 : c.length = 0
    · simp [hdriFlow, hext, hc0]
    · rcases hcp : co.compressRes with e | oc
      · simp [hdriFlow, hext, hc0, hcp]
      · rcases hup : so.uploadRes with e | u3
        · intro b p cc src h
          simp [hdriFlow, hext, hc0, hcp, hup] at h
          rcases h with ⟨-, -, h3, -⟩
          subst h3
          simp [hcp]
        · intro b p cc src h
          simp [hdriFlow, hext, hc0, hcp, hup] at h
          rcases h with ⟨-, -, h3, -⟩
          subst h3
          simp [hcp]
  · simp [hdriFlow, hext]

/-- C5: the media transformations are performed entirely by the external
engines.  The bytes either endpoint uploads are exactly the bytes the
transcoder (resp. the codec library) produced, and the `compress_exr` pixel
data is exactly the library resize followed by the library float16
conversion of the input channels — the repository composes these calls and
never transforms media itself. -/
theorem c5_delegation {α β : Type} (csp rsp q u : String) (fo : FfOracle)
    (so : StorOracle) (fr : String → String) (fn ct2 rsp2 u2 : String)
    (co : CodecOracle) (so2 : StorOracle) (rf : Nat → Nat → String)
    (resizeF : α → Nat → Nat → α) (toHalfBytes : α → β) (ip od : String)
    (inp : ExrInput α) :
    (∀ b p cc src, Ev.upload b p cc src ∈ (audioFlow csp rsp q u fo so fr).trace →
      fo.convertRes = .ok (some cc)) ∧
    (∀ b p cc src, Ev.upload b p cc src ∈ (hdriFlow fn ct2 rsp2 u2 co so2 rf).trace →
      co.compressRes = .ok cc) ∧
    (compress_exr resizeF toHalfBytes ip od inp).map (fun f => f.pixelData) =
      [(rgbaNames.filter (hasChannel inp.header)).map
        (fun ch => (ch, toHalfBytes (resizeF (inp.channelData ch) 1024 2048)))] :=
  ⟨audioFlow_upload_content csp rsp q u fo so fr,
   hdriFlow_upload_content fn ct2 rsp2 u2 co so2 rf,
   by simp [compress_exr, List.map_map, Function.comp]⟩

/-- Witness for `c5_delegation` at concrete successful requests. -/
theorem c5_delegation_witness :
    (⟨Except.ok "d", Except.ok (some "M"), ""⟩ : FfOracle).convertRes
      = Except.ok (some "M") ∧
    (⟨Except.ok "E"⟩ : CodecOracle).compressRes = Except.ok "E" :=
  ⟨(c5_delegation (α := Nat) (β := Nat) "dir/song.wav" "res/out.mp3" "8" "u0"
      ⟨Except.ok "d", Except.ok (some "M"), ""⟩ ⟨.ok "W", .ok (), "p"⟩ id
      "env.exr" "DATA" "res/env.exr" "u0" ⟨Except.ok "E"⟩ ⟨.ok "W", .ok (), "p"⟩
      (fun _ _ => "") (fun a _ _ => a) (fun a => a) "/i.exr" "/o"
      ⟨⟨⟨0, 0, 1, 1⟩, ⟨0, 0, 1, 1⟩, ExrCompression.NONE, [("R", PixType.FLOAT)]⟩,
        fun _ => 0⟩).1
      "realease-experience-content" "res/out.mp3" "M" "/tmp/u0-converted.mp3"
      (by decide),
   (c5_delegation (α := Nat) (β := Nat) "dir/song.wav" "res/out.mp3" "8" "u0"
      ⟨Except.ok "d", Except.ok (some "M"), ""⟩ ⟨.ok "W", .ok (), "p"⟩ id
      "env.exr" "DATA" "res/env.exr" "u0" ⟨Except.ok "E"⟩ ⟨.ok "W", .ok (), "p"⟩
      (fun _ _ => "") (fun a _ _ => a) (fun a => a) "/i.exr" "/o"
      ⟨⟨⟨0, 0, 1, 1⟩, ⟨0, 0, 1, 1⟩, ExrCompression.NONE, [("R", PixType.FLOAT)]⟩,
        fun _ => 0⟩).2.1
      "realease-experience-content" "res/env.exr" "E"
      (hdriOutputPath "u0" "env.exr") (by decide)⟩

/-! ## Claim C7: the linear per-request order of operations -/

theorem mainFinally_deletes (tempIn : String) (cp : Option String) (fs : Fs) :
    ∀ e ∈ (mainFinally tempIn cp fs).2, ∃ ppp, e = Ev.deleteFile ppp := by
  unfold mainFinally
  rcases cp with _ | pp
  · by_cases h1 : fsHas tempIn fs <;> simp [h1]
  · by_cases h1 : fsHas tempIn fs <;>
      by_cases h2 : fsHas pp (fsRemove tempIn fs) <;>
        by_cases h3 : fsHas pp fs <;> simp [h1, h2, h3]

theorem scan_deletes (l : List Ev) (hd : ∀ e ∈ l, ∃ ppp, e = Ev.deleteFile ppp) :
    ∀ st : ScanSt, st.ok = true → st.responded = false →
      (l.foldl evStep st).ok = true ∧ (l.foldl evStep st).responded = false := by
  induction l with
  | nil => exact fun st hok hrs => ⟨hok, hrs⟩
  | cons e t ih =>
    intro st hok hrs
    rcases hd e (by simp) with ⟨ppp, rfl⟩
    have hstep : evStep st (Ev.deleteFile ppp)
        = { st with deletedFiles := ppp :: st.deletedFiles } := by
      simp [evStep, hok, hrs]
    rw [List.foldl_cons, hstep]
    exact ih (fun e he => hd e (by simp [he])) _ hok hrs

theorem seqOk_concat (pre D : List Ev) (n : Nat)
    (hd : ∀ e ∈ D, ∃ ppp, e = Ev.deleteFile ppp)
    (hok : (pre.foldl evStep scanInit).ok = true)
    (hrs : (pre.foldl evStep scanInit).responded = false) :
    seqOk (pre ++ (D ++ [Ev.respond n])) = true := by
  unfold seqOk
  rw [List.foldl_append, List.foldl_append]
  rcases scan_deletes D hd _ hok hrs with ⟨hok2, hrs2⟩
  simp [List.foldl, evStep, hok2, hrs2]

/-- The `/convert` trace respects the linear order of the spec. -/
theorem audioFlow_seqOk (csp rsp q u : String) (fo : FfOracle) (so : StorOracle)
    (fr : String → String) :
    seqOk (audioFlow csp rsp q u fo so fr).trace = true := by
  by_cases hc : csp = ""
  · simp [audioFlow, hc, seqOk, evStep, scanInit]
  · rcases hdl : so.downloadRes with e | ct
    · simp [audioFlow, hc, hdl, seqOk, evStep, scanInit]
    · by_cases hct : ct = ""
      · simp [audioFlow, hc, hdl, hct, seqOk, evStep, scanInit]
      · have hct' : ¬ ct.length = 0 := by
          intro h0
          exact hct (by
            cases ct with
            | mk l => cases l with
              | nil => rfl
              | cons a t => simp [String.length] at h0)
        by_cases hext : asciiLower (pySuffix (pathName csp)) ∈ supportedAudioFormats
        · rcases hld : fo.loudnessRes with e | diag
          ·
            have hsvc := audioSvc_loudness_err u q defaultSamplerate
                (fsWrite (tempInOf csp) ct []) hext hct' hld
            have h := seqOk_concat
              [Ev.download csp, Ev.writeFile (tempInOf csp),
               Ev.writeFile (audioInputPath u (pathName csp)),
               Ev.runFfmpeg (loudnessArgs (audioInputPath u (pathName csp))),
               Ev.deleteFile (audioInputPath u (pathName csp))]
              ((mainFinally (tempInOf csp) none (audioSvcOf csp ct u q fo).fs).2) 500
              (mainFinally_deletes _ _ _)
              (by simp [List.foldl_cons, List.foldl_nil, evStep, scanInit])
              (by simp [List.foldl_cons, List.foldl_nil, evStep, scanInit])
            simp only [audioFlow, audioSvcOf, hc, hdl, hct, hsvc] at h ⊢
            simpa using h
          · rcases hcv : fo.convertRes with e | ocOpt
            ·
              have hsvc := audioSvc_convert_err u q defaultSamplerate
                  (fsWrite (tempInOf csp) ct []) hext hct' hld hcv
              have h := seqOk_concat
                [Ev.download csp, Ev.writeFile (tempInOf csp),
                 Ev.writeFile (audioInputPath u (pathName csp)),
                 Ev.runFfmpeg (loudnessArgs (audioInputPath u (pathName csp))),
                 Ev.parseDiag,
                 Ev.runFfmpeg (convertCmdArgs (audioInputPath u (pathName csp)) (audioOutputPath u) q defaultSamplerate),
                 Ev.deleteFile (audioInputPath u (pathName csp))]
                ((mainFinally (tempInOf csp) none (audioSvcOf csp ct u q fo).fs).2) 500
                (mainFinally_deletes _ _ _)
                (by simp [List.foldl_cons, List.foldl_nil, evStep, scanInit])
                (by simp [List.foldl_cons, List.foldl_nil, evStep, scanInit])
              simp only [audioFlow, audioSvcOf, hc, hdl, hct, hsvc] at h ⊢
              simpa using h
            · rcases ocOpt with _ | oc
              ·
                have hsvc := audioSvc_no_output u q defaultSamplerate
                    (fsWrite (tempInOf csp) ct []) hext hct' hld hcv
                have h := seqOk_concat
                  [Ev.download csp, Ev.writeFile (tempInOf csp),
                   Ev.writeFile (audioInputPath u (pathName csp)),
                   Ev.runFfmpeg (loudnessArgs (audioInputPath u (pathName csp))),
                   Ev.parseDiag,
                   Ev.runFfmpeg (convertCmdArgs (audioInputPath u (pathName csp)) (audioOutputPath u) q defaultSamplerate),
                   Ev.deleteFile (audioInputPath u (pathName csp))]
                  ((mainFinally (tempInOf csp) none (audioSvcOf csp ct u q fo).fs).2) 500
                  (mainFinally_deletes _ _ _)
                  (by simp [List.foldl_cons, List.foldl_nil, evStep, scanInit])
                  (by simp [List.foldl_cons, List.foldl_nil, evStep, scanInit])
                simp only [audioFlow, audioSvcOf, hc, hdl, hct, hsvc] at h ⊢
                simpa using h
              · by_cases hoc : oc.length = 0
                ·
                  have hsvc := audioSvc_output_empty u q defaultSamplerate
                      (fsWrite (tempInOf csp) ct []) hext hct' hld hcv hoc
                  have h := seqOk_concat
                    [Ev.download csp, Ev.writeFile (tempInOf csp),
                     Ev.writeFile (audioInputPath u (pathName csp)),
                     Ev.runFfmpeg (loudnessArgs (audioInputPath u (pathName csp))),
                     Ev.parseDiag,
                     Ev.runFfmpeg (convertCmdArgs (audioInputPath u (pathName csp)) (audioOutputPath u) q defaultSamplerate),
                     Ev.deleteFile (audioInputPath u (pathName csp))]
                    ((mainFinally (tempInOf csp) none (audioSvcOf csp ct u q fo).fs).2) 500
                    (mainFinally_deletes _ _ _)
                    (by simp [List.foldl_cons, List.foldl_nil, evStep, scanInit])
                    (by simp [List.foldl_cons, List.foldl_nil, evStep, scanInit])
                  simp only [audioFlow, audioSvcOf, hc, hdl, hct, hsvc] at h ⊢
                  simpa using h
                · by_cases hv : fo.verifyStderr = ""
                  · by_cases hio : audioInputPath u (pathName csp) = audioOutputPath u
                    ·
                      have hsvc := audioSvc_success u q defaultSamplerate
                          (fsWrite (tempInOf csp) ct []) hext hct' hld hcv hoc hv
                      have h := seqOk_concat
                        [Ev.download csp, Ev.writeFile (tempInOf csp),
                         Ev.writeFile (audioInputPath u (pathName csp)),
                         Ev.runFfmpeg (loudnessArgs (audioInputPath u (pathName csp))),
                         Ev.parseDiag,
                         Ev.runFfmpeg (convertCmdArgs (audioInputPath u (pathName csp)) (audioOutputPath u) q defaultSamplerate),
                         Ev.runFfmpeg (verifyCmdArgs (audioOutputPath u)),
                         Ev.deleteFile (audioInputPath u (pathName csp))]
                        ((mainFinally (tempInOf csp) (some (audioOutputPath u)) (audioSvcOf csp ct u q fo).fs).2) 500
                        (mainFinally_deletes _ _ _)
                        (by simp [List.foldl_cons, List.foldl_nil, evStep, scanInit])
                        (by simp [List.foldl_cons, List.foldl_nil, evStep, scanInit])
                      simp only [audioFlow, audioSvcOf, hc, hdl, hct, hsvc, fsRead_remove, fsRead_write, hio] at h ⊢
                      simpa using h
                    · have hio2 : ¬ audioOutputPath u = audioInputPath u (pathName csp) :=
                        fun hh => hio hh.symm
                      rcases hpe : mp3PathE rsp with e2 | path
                      ·
                        have hsvc := audioSvc_success u q defaultSamplerate
                            (fsWrite (tempInOf csp) ct []) hext hct' hld hcv hoc hv
                        have h := seqOk_concat
                          [Ev.download csp, Ev.writeFile (tempInOf csp),
                           Ev.writeFile (audioInputPath u (pathName csp)),
                           Ev.runFfmpeg (loudnessArgs (audioInputPath u (pathName csp))),
                           Ev.parseDiag,
                           Ev.runFfmpeg (convertCmdArgs (audioInputPath u (pathName csp)) (audioOutputPath u) q defaultSamplerate),
                           Ev.runFfmpeg (verifyCmdArgs (audioOutputPath u)),
                           Ev.deleteFile (audioInputPath u (pathName csp))]
                          ((mainFinally (tempInOf csp) (some (audioOutputPath u)) (audioSvcOf csp ct u q fo).fs).2) 500
                          (mainFinally_deletes _ _ _)
                          (by simp [List.foldl_cons, List.foldl_nil, evStep, scanInit])
                          (by simp [List.foldl_cons, List.foldl_nil, evStep, scanInit])
                        simp only [audioFlow, audioSvcOf, hc, hdl, hct, hsvc, fsRead_remove, fsRead_write, hio, hpe] at h ⊢
                        simpa using h
                      · rcases hup : so.uploadRes with e3 | u3
                        ·
                          have hsvc := audioSvc_success u q defaultSamplerate
                              (fsWrite (tempInOf csp) ct []) hext hct' hld hcv hoc hv
                          have h := seqOk_concat
                            [Ev.download csp, Ev.writeFile (tempInOf csp),
                             Ev.writeFile (audioInputPath u (pathName csp)),
                             Ev.runFfmpeg (loudnessArgs (audioInputPath u (pathName csp))),
                             Ev.parseDiag,
                             Ev.runFfmpeg (convertCmdArgs (audioInputPath u (pathName csp)) (audioOutputPath u) q defaultSamplerate),
                             Ev.runFfmpeg (verifyCmdArgs (audioOutputPath u)),
                             Ev.deleteFile (audioInputPath u (pathName csp)),
                             Ev.upload bucketName path oc (audioOutputPath u)]
                            ((mainFinally (tempInOf csp) (some (audioOutputPath u)) (audioSvcOf csp ct u q fo).fs).2) 500
                            (mainFinally_deletes _ _ _)
                            (by simp [List.foldl_cons, List.foldl_nil, evStep, scanInit, hio2])
                            (by simp [List.foldl_cons, List.foldl_nil, evStep, scanInit, hio2])
                          simp only [audioFlow, audioSvcOf, hc, hdl, hct, hsvc, fsRead_remove, fsRead_write, hio, hpe, hup] at h ⊢
                          simpa using h
                        ·
                          have hsvc := audioSvc_success u q defaultSamplerate
                              (fsWrite (tempInOf csp) ct []) hext hct' hld hcv hoc hv
                          have h := seqOk_concat
                            [Ev.download csp, Ev.writeFile (tempInOf csp),
                             Ev.writeFile (audioInputPath u (pathName csp)),
                             Ev.runFfmpeg (loudnessArgs (audioInputPath u (pathName csp))),
                             Ev.parseDiag,
                             Ev.runFfmpeg (convertCmdArgs (audioInputPath u (pathName csp)) (audioOutputPath u) q defaultSamplerate),
                             Ev.runFfmpeg (verifyCmdArgs (audioOutputPath u)),
                             Ev.deleteFile (audioInputPath u (pathName csp)),
                             Ev.upload bucketName path oc (audioOutputPath u),
                             Ev.getPublicUrl path]
                            ((mainFinally (tempInOf csp) (some (audioOutputPath u)) (audioSvcOf csp ct u q fo).fs).2) 200
                            (mainFinally_deletes _ _ _)
                            (by simp [List.foldl_cons, List.foldl_nil, evStep, scanInit, hio2])
                            (by simp [List.foldl_cons, List.foldl_nil, evStep, scanInit, hio2])
                          simp only [audioFlow, audioSvcOf, hc, hdl, hct, hsvc, fsRead_remove, fsRead_write, hio, hpe, hup] at h ⊢
                          simpa using h
                  ·
                    have hsvc := audioSvc_verify_fail u q defaultSamplerate
                        (fsWrite (tempInOf csp) ct []) hext hct' hld hcv hoc hv
                    have h := seqOk_concat
                      [Ev.download csp, Ev.writeFile (tempInOf csp),
                       Ev.writeFile (audioInputPath u (pathName csp)),
                       Ev.runFfmpeg (loudnessArgs (audioInputPath u (pathName csp))),
                       Ev.parseDiag,
                       Ev.runFfmpeg (convertCmdArgs (audioInputPath u (pathName csp)) (audioOutputPath u) q defaultSamplerate),
                       Ev.runFfmpeg (verifyCmdArgs (audioOutputPath u)),
                       Ev.deleteFile (audioInputPath u (pathName csp))]
                      ((mainFinally (tempInOf csp) none (audioSvcOf csp ct u q fo).fs).2) 500
                      (mainFinally_deletes _ _ _)
                      (by simp [List.foldl_cons, List.foldl_nil, evStep, scanInit])
                      (by simp [List.foldl_cons, List.foldl_nil, evStep, scanInit])
                    simp only [audioFlow, audioSvcOf, hc, hdl, hct, hsvc] at h ⊢
                    simpa using h
        ·
          have hsvc := audioSvc_unsupported ct u q defaultSamplerate fo
              (fsWrite (tempInOf csp) ct []) hext
          have h := seqOk_concat
            [Ev.download csp, Ev.writeFile (tempInOf csp)]
            ((mainFinally (tempInOf csp) none (audioSvcOf csp ct u q fo).fs).2) 500
            (mainFinally_deletes _ _ _)
            (by simp [List.foldl_cons, List.foldl_nil, evStep, scanInit])
            (by simp [List.foldl_cons, List.foldl_nil, evStep, scanInit])
          simp only [audioFlow, audioSvcOf, hc, hdl, hct, hsvc] at h ⊢
          simpa using h

/-- The `/convert_environment_hdri` trace respects the linear order of the
spec. -/
theorem hdriFlow_seqOk (fn c rsp u : String) (co : CodecOracle)
    (so : StorOracle) (rf : Nat → Nat → String) :
    seqOk (hdriFlow fn c rsp u co so rf).trace = true := by
  by_cases hext : asciiLower (pySuffix fn) ∈ hdriSupportedFormats
  · by_cases hc0 : c.length = 0
    · simp [hdriFlow, hext, hc0, seqOk, evStep, scanInit]
    · rcases hcp : co.compressRes with e | oc
      · simp [hdriFlow, hext, hc0, hcp, seqOk, evStep, scanInit]
      · rcases hup : so.uploadRes with e | u3
        · simp [hdriFlow, hext, hc0, hcp, hup, seqOk, evStep, scanInit]
        · simp [hdriFlow, hext, hc0, hcp, hup, seqOk, evStep, scanInit]
  · simp [hdriFlow, hext, seqOk, evStep, scanInit]

/-- C7: on both endpoints the handler operations follow the linear order of
the spec — staging writes precede any converter invocation, the converter
completes (and, on the audio path, diagnostics are parsed) before any bytes
are uploaded, the public URL is only resolved after the upload, no file is
uploaded after being deleted (directly or via its directory), and nothing
happens after the response. -/
theorem c7_linear_dataflow (csp rsp q u : String) (fo : FfOracle)
    (so : StorOracle) (fr : String → String) (fn c rsp2 u2 : String)
    (co : CodecOracle) (so2 : StorOracle) (rf : Nat → Nat → String) :
    seqOk (audioFlow csp rsp q u fo so fr).trace = true ∧
    seqOk (hdriFlow fn c rsp2 u2 co so2 rf).trace = true :=
  ⟨audioFlow_seqOk csp rsp q u fo so fr, hdriFlow_seqOk fn c rsp2 u2 co so2 rf⟩

/-! ## Claim C6: per-request statelessness of the responses -/

/-- C6 fails on the HDRI endpoint: two runs identical except for the
generated uuid return different bodies — the response embeds the scratch
paths (`metadata.temp_files`) built from the uuid. -/
theorem c6_counterexample :
    bodyTempInputFile (hdriFlow "env.exr" "DATA" "res/env.exr" "aaaa"
        ⟨.ok "E"⟩ ⟨.ok "W", .ok (), "p"⟩ (fun _ _ => "r")).body
      = some (J.s "/tmp/aaaa-env.exr") ∧
    bodyTempInputFile (hdriFlow "env.exr" "DATA" "res/env.exr" "bbbb"
        ⟨.ok "E"⟩ ⟨.ok "W", .ok (), "p"⟩ (fun _ _ => "r")).body
      = some (J.s "/tmp/bbbb-env.exr") ∧
    (hdriFlow "env.exr" "DATA" "res/env.exr" "aaaa"
        ⟨.ok "E"⟩ ⟨.ok "W", .ok (), "p"⟩ (fun _ _ => "r")).body
      ≠ (hdriFlow "env.exr" "DATA" "res/env.exr" "bbbb"
        ⟨.ok "E"⟩ ⟨.ok "W", .ok (), "p"⟩ (fun _ _ => "r")).body := by
  have h1 : bodyTempInputFile (hdriFlow "env.exr" "DATA" "res/env.exr" "aaaa"
      ⟨.ok "E"⟩ ⟨.ok "W", .ok (), "p"⟩ (fun _ _ => "r")).body
      = some (J.s "/tmp/aaaa-env.exr") := rfl
  have h2 : bodyTempInputFile (hdriFlow "env.exr" "DATA" "res/env.exr" "bbbb"
      ⟨.ok "E"⟩ ⟨.ok "W", .ok (), "p"⟩ (fun _ _ => "r")).body
      = some (J.s "/tmp/bbbb-env.exr") := rfl
  refine ⟨h1, h2, fun h => ?_⟩
  have h3 := congrArg bodyTempInputFile h
  rw [h1, h2] at h3
  injection h3 with h4
  injection h4 with h5
  exact absurd h5 (by decide)

/-- Away from the `converted.mp3` filename collision, the `/convert`
response depends only on the request inputs and the behaviour of the
external services: the per-request uuid never reaches the body or status. -/
theorem audioFlow_body_uuid_indep (csp rsp q u1 u2 : String) (fo : FfOracle)
    (so : StorOracle) (fr : String → String)
    (hfn : ¬ pathName csp = "converted.mp3") :
    (audioFlow csp rsp q u1 fo so fr).body = (audioFlow csp rsp q u2 fo so fr).body ∧
    (audioFlow csp rsp q u1 fo so fr).status = (audioFlow csp rsp q u2 fo so fr).status := by
  by_cases hc : csp = ""
  · simp [audioFlow, hc]
  · rcases hdl : so.downloadRes with e | ct
    · simp [audioFlow, hc, hdl]
    · by_cases hct : ct = ""
      · simp [audioFlow, hc, hdl, hct]
      · have hct' : ¬ ct.length = 0 := by
          intro h0
          exact hct (by
            cases ct with
            | mk l => cases l with
              | nil => rfl
              | cons a t => simp [String.length] at h0)
        by_cases hext : asciiLower (pySuffix (pathName csp)) ∈ supportedAudioFormats
        · rcases hld : fo.loudnessRes with e | diag
          ·
            have hsvc1 := audioSvc_loudness_err u1 q defaultSamplerate
                (fsWrite (tempInOf csp) ct []) hext hct' hld
            have hsvc2 := audioSvc_loudness_err u2 q defaultSamplerate
                (fsWrite (tempInOf csp) ct []) hext hct' hld
            simp [audioFlow, audioSvcOf, hc, hdl, hct, hsvc1, hsvc2]
          · rcases hcv : fo.convertRes with e | ocOpt
            ·
              have hsvc1 := audioSvc_convert_err u1 q defaultSamplerate
                  (fsWrite (tempInOf csp) ct []) hext hct' hld hcv
              have hsvc2 := audioSvc_convert_err u2 q defaultSamplerate
                  (fsWrite (tempInOf csp) ct []) hext hct' hld hcv
              simp [audioFlow, audioSvcOf, hc, hdl, hct, hsvc1, hsvc2]
            · rcases ocOpt with _ | oc
              ·
                have hsvc1 := audioSvc_no_output u1 q defaultSamplerate
                    (fsWrite (tempInOf csp) ct []) hext hct' hld hcv
                have hsvc2 := audioSvc_no_output u2 q defaultSamplerate
                    (fsWrite (tempInOf csp) ct []) hext hct' hld hcv
                simp [audioFlow, audioSvcOf, hc, hdl, hct, hsvc1, hsvc2]
              · by_cases hoc : oc.length = 0
                ·
                  have hsvc1 := audioSvc_output_empty u1 q defaultSamplerate
                      (fsWrite (tempInOf csp) ct []) hext hct' hld hcv hoc
                  have hsvc2 := audioSvc_output_empty u2 q defaultSamplerate
                      (fsWrite (tempInOf csp) ct []) hext hct' hld hcv hoc
                  simp [audioFlow, audioSvcOf, hc, hdl, hct, hsvc1, hsvc2]
                · by_cases hv : fo.verifyStderr = ""
                  · have hio1 : ¬ audioInputPath u1 (pathName csp) = audioOutputPath u1 :=
                      fun hh => hfn ((audioOutputPath_eq_inputPath_iff u1 (pathName csp)).mp hh.symm)
                    have hio2 : ¬ audioInputPath u2 (pathName csp) = audioOutputPath u2 :=
                      fun hh => hfn ((audioOutputPath_eq_inputPath_iff u2 (pathName csp)).mp hh.symm)
                    rcases hpe : mp3PathE rsp with e2 | path
                    ·
                      have hsvc1 := audioSvc_success u1 q defaultSamplerate
                          (fsWrite (tempInOf csp) ct []) hext hct' hld hcv hoc hv
                      have hsvc2 := audioSvc_success u2 q defaultSamplerate
                          (fsWrite (tempInOf csp) ct []) hext hct' hld hcv hoc hv
                      simp [audioFlow, audioSvcOf, hc, hdl, hct, hsvc1, hsvc2, fsRead_remove, fsRead_write, hio1, hio2, hpe]
                    · rcases hup : so.uploadRes with e3 | u3
                      ·
                        have hsvc1 := audioSvc_success u1 q defaultSamplerate
                            (fsWrite (tempInOf csp) ct []) hext hct' hld hcv hoc hv
                        have hsvc2 := audioSvc_success u2 q defaultSamplerate
                            (fsWrite (tempInOf csp) ct []) hext hct' hld hcv hoc hv
                        simp [audioFlow, audioSvcOf, hc, hdl, hct, hsvc1, hsvc2, fsRead_remove, fsRead_write, hio1, hio2, hpe, hup]
                      ·
                        have hsvc1 := audioSvc_success u1 q defaultSamplerate
                            (fsWrite (tempInOf csp) ct []) hext hct' hld hcv hoc hv
                        have hsvc2 := audioSvc_success u2 q defaultSamplerate
                            (fsWrite (tempInOf csp) ct []) hext hct' hld hcv hoc hv
                        simp [audioFlow, audioSvcOf, hc, hdl, hct, hsvc1, hsvc2, fsRead_remove, fsRead_write, hio1, hio2, hpe, hup]
                  ·
                    have hsvc1 := audioSvc_verify_fail u1 q defaultSamplerate
                        (fsWrite (tempInOf csp) ct []) hext hct' hld hcv hoc hv
                    have hsvc2 := audioSvc_verify_fail u2 q defaultSamplerate
                        (fsWrite (tempInOf csp) ct []) hext hct' hld hcv hoc hv
                    simp [audioFlow, audioSvcOf, hc, hdl, hct, hsvc1, hsvc2]
        · have hsvc1 := audioSvc_unsupported ct u1 q defaultSamplerate fo
            (fsWrite (tempInOf csp) ct []) hext
          have hsvc2 := audioSvc_unsupported ct u2 q defaultSamplerate fo
            (fsWrite (tempInOf csp) ct []) hext
          simp [audioFlow, audioSvcOf, hc, hdl, hct, hsvc1, hsvc2]

/-- C6 amended: the audio endpoint is stateless in the sense of the claim — for
identical request inputs and identical external behaviour, the response
body and status are independent of the generated per-request uuid (provided
the input base name is not the colliding `converted.mp3`).  The HDRI
endpoint is not: its response embeds the uuid-derived scratch paths. -/
theorem c6_amended (csp rsp q u1 u2 : String) (fo : FfOracle) (so : StorOracle)
    (fr : String → String) (hfn : ¬ pathName csp = "converted.mp3") :
    (audioFlow csp rsp q u1 fo so fr).body = (audioFlow csp rsp q u2 fo so fr).body ∧
    (audioFlow csp rsp q u1 fo so fr).status = (audioFlow csp rsp q u2 fo so fr).status :=
  audioFlow_body_uuid_indep csp rsp q u1 u2 fo so fr hfn

/-- Witness for `c6_amended`: two concrete runs differing only in the
uuid give the same status. -/
theorem c6_amended_witness :
    (audioFlow "dir/song.wav" "res/out.mp3" "8" "aaaa"
        ⟨.ok "d", .ok (some "M"), ""⟩ ⟨.ok "W", .ok (), "p"⟩ id).status =
      (audioFlow "dir/song.wav" "res/out.mp3" "8" "bbbb"
        ⟨.ok "d", .ok (some "M"), ""⟩ ⟨.ok "W", .ok (), "p"⟩ id).status :=
  (c6_amended "dir/song.wav" "res/out.mp3" "8" "aaaa" "bbbb"
    ⟨.ok "d", .ok (some "M"), ""⟩ ⟨.ok "W", .ok (), "p"⟩ id (by decide)).2

/-! ## Claim C10: the result path always gets an `.mp3` suffix -/

theorem joinParts_snoc (l : List String) (a : String) :
    ∃ qq, joinParts (l ++ [a]) = qq ++ a := by
  induction l with
  | nil =>
    refine ⟨"", ?_⟩
    apply strEq_of_data
    simp [joinParts, String.data_append]
  | cons b t ih =>
    rcases ih with ⟨qq, hq⟩
    cases t with
    | nil => exact ⟨b ++ "/", rfl⟩
    | cons c t2 =>
      refine ⟨(b ++ "/") ++ qq, ?_⟩
      rw [show joinParts (b :: (c :: t2) ++ [a])
          = (b ++ "/") ++ joinParts ((c :: t2) ++ [a]) from rfl, hq,
        ← String.append_assoc]

theorem pathStr_snoc_mp3 (root : Nat) (l : List String) (x : String) :
    ∃ y, pathStr ⟨root, l ++ [x ++ ".mp3"]⟩ = y ++ ".mp3" := by
  rcases joinParts_snoc l (x ++ ".mp3") with ⟨qq, hq⟩
  have hne : ¬ (qq ++ (x ++ ".mp3")) = "" := by
    apply strNe_of_length
    simp [String.length_append, show (".mp3" : String).length = 4 from rfl,
      show ("" : String).length = 0 from rfl]
  refine ⟨(if root = 2 then "//" else if root = 1 then "/" else "") ++ (qq ++ x), ?_⟩
  unfold pathStr
  simp only [hq]
  rw [if_neg (fun hh => hne hh.2)]
  apply strEq_of_data
  simp [String.data_append, List.append_assoc]

theorem pyEndsWith_lower_append_mp3 (y : String) :
    pyEndsWith (asciiLower (y ++ ".mp3")) ".mp3" = true := by
  unfold pyEndsWith asciiLower
  apply decide_eq_true
  rw [show (String.mk ((y ++ ".mp3").data.map asciiLowerChar)).data
      = (y.data ++ (".mp3" : String).data).map asciiLowerChar from
        congrArg (List.map asciiLowerChar) (String.data_append y ".mp3"),
    List.map_append, List.reverse_append,
    show ((".mp3" : String).data.map asciiLowerChar) = (".mp3" : String).data from by decide,
    show ((".mp3" : String).data.length) = (".mp3" : String).data.reverse.length from by decide,
    List.take_left]

theorem withSuffixMp3_ends {s p : String} (h : withSuffixMp3 s = .ok p) :
    pyEndsWith (asciiLower p) ".mp3" = true := by
  unfold withSuffixMp3 at h
  by_cases hn : (parsePath s).parts.getLastD "" = ""
  · rw [if_pos hn] at h
    cases h
  · rw [if_neg hn] at h
    injection h with h2
    rcases pathStr_snoc_mp3 (parsePath s).root (parsePath s).parts.dropLast
      (String.mk (((parsePath s).parts.getLastD "").data.take
        (((parsePath s).parts.getLastD "").data.length
          - (pySuffixOfName ((parsePath s).parts.getLastD "")).data.length)))
      with ⟨y, hy⟩
    rw [← h2, hy]
    exact pyEndsWith_lower_append_mp3 y

/-- The result-path fixing of the handler always yields (on success) a path that
ends in `.mp3` case-insensitively, and leaves an already-`.mp3` path
untouched. -/
theorem mp3PathE_ok_ends {rsp p : String} (h : mp3PathE rsp = .ok p) :
    pyEndsWith (asciiLower p) ".mp3" = true ∧
    (pyEndsWith (asciiLower rsp) ".mp3" = true → p = rsp) := by
  unfold mp3PathE at h
  by_cases hend : pyEndsWith (asciiLower rsp) ".mp3" = true
  · rw [if_pos hend] at h
    injection h with h2
    subst h2
    exact ⟨hend, fun _ => rfl⟩
  · rw [if_neg hend] at h
    exact ⟨withSuffixMp3_ends h, fun hh => absurd hh hend⟩

theorem jGet2_audioSuccessBody (fr : String → String) (pu pa : String)
    (d : Loudness) :
    jGet2 (audioSuccessBody fr pu pa d) "data" "path" = some (J.s pa) := rfl

/-- C10 fails as stated: the `with_suffix` path goes through
`PurePosixPath`, which POSIX-normalises the string.  For
`result_supabase_storage_path = "a//b.wav"` the textual suffix
replacement gives `a//b.mp3`, but the code uploads and returns
`a/b.mp3`. -/
theorem c10_counterexample :
    (audioFlow "dir/in.wav" "a//b.wav" "8" "u0"
        ⟨.ok "d", .ok (some "M"), ""⟩ ⟨.ok "W", .ok (), "p"⟩ id).status = 200 ∧
    jGet2 (audioFlow "dir/in.wav" "a//b.wav" "8" "u0"
        ⟨.ok "d", .ok (some "M"), ""⟩ ⟨.ok "W", .ok (), "p"⟩ id).body
      "data" "path" = some (J.s "a/b.mp3") ∧
    specReplaceSuffixMp3 "a//b.wav" = "a//b.mp3" ∧
    ("a/b.mp3" : String) ≠ "a//b.mp3" :=
  ⟨by decide, rfl, by decide, by decide⟩

/-- C10 amended: on a 200 response of `/convert`, the uploaded path — which
is also returned as `data.path` — is `rsp` itself when `rsp` already ends in
`.mp3` case-insensitively, and otherwise the with_suffix result
(which POSIX-normalises the path); either way it ends in `.mp3`
case-insensitively. -/
theorem c10_amended (csp rsp q u : String) (fo : FfOracle) (so : StorOracle)
    (fr : String → String)
    (h200 : (audioFlow csp rsp q u fo so fr).status = 200) :
    ∃ p oc, mp3PathE rsp = .ok p ∧
      Ev.upload bucketName p oc (audioOutputPath u)
        ∈ (audioFlow csp rsp q u fo so fr).trace ∧
      jGet2 (audioFlow csp rsp q u fo so fr).body "data" "path"
        = some (J.s p) ∧
      pyEndsWith (asciiLower p) ".mp3" = true ∧
      (pyEndsWith (asciiLower rsp) ".mp3" = true → p = rsp) := by
  by_cases hc : csp = ""
  · simp [audioFlow, hc] at h200
  · rcases hdl : so.downloadRes with e | ct
    · simp [audioFlow, hc, hdl] at h200
    · by_cases hct : ct = ""
      · simp [audioFlow, hc, hdl, hct] at h200
      · have hct' : ¬ ct.length = 0 := by
          intro h0
          exact hct (by
            cases ct with
            | mk l => cases l with
              | nil => rfl
              | cons a t => simp [String.length] at h0)
        by_cases hext : asciiLower (pySuffix (pathName csp)) ∈ supportedAudioFormats
        · rcases hld : fo.loudnessRes with e | diag
          ·
            have hsvc := audioSvc_loudness_err u q defaultSamplerate
                (fsWrite (tempInOf csp) ct []) hext hct' hld
            simp [audioFlow, audioSvcOf, hc, hdl, hct, hsvc] at h200
          · rcases hcv : fo.convertRes with e | ocOpt
            ·
              have hsvc := audioSvc_convert_err u q defaultSamplerate
                  (fsWrite (tempInOf csp) ct []) hext hct' hld hcv
              simp [audioFlow, audioSvcOf, hc, hdl, hct, hsvc] at h200
            · rcases ocOpt with _ | oc
              ·
                have hsvc := audioSvc_no_output u q defaultSamplerate
                    (fsWrite (tempInOf csp) ct []) hext hct' hld hcv
                simp [audioFlow, audioSvcOf, hc, hdl, hct, hsvc] at h200
              · by_cases hoc : oc.length = 0
                ·
                  have hsvc := audioSvc_output_empty u q defaultSamplerate
                      (fsWrite (tempInOf csp) ct []) hext hct' hld hcv hoc
                  simp [audioFlow, audioSvcOf, hc, hdl, hct, hsvc] at h200
                · by_cases hv : fo.verifyStderr = ""
                  · have hsvc := audioSvc_success u q defaultSamplerate
                      (fsWrite (tempInOf csp) ct []) hext hct' hld hcv hoc hv
                    by_cases hio : audioInputPath u (pathName csp) = audioOutputPath u
                    · simp [audioFlow, audioSvcOf, hc, hdl, hct, hsvc,
                        fsRead_remove, fsRead_write, hio] at h200
                    · rcases hpe : mp3PathE rsp with e2 | path
                      · simp [audioFlow, audioSvcOf, hc, hdl, hct, hsvc,
                          fsRead_remove, fsRead_write, hio, hpe] at h200
                      · rcases hup : so.uploadRes with e3 | u3
                        · simp [audioFlow, audioSvcOf, hc, hdl, hct, hsvc,
                            fsRead_remove, fsRead_write, hio, hpe, hup] at h200
                        · refine ⟨path, oc, ?_, ?_, ?_, (mp3PathE_ok_ends hpe).1,
                            (mp3PathE_ok_ends hpe).2⟩
                          · rfl
                          · simp [audioFlow, audioSvcOf, hc, hdl, hct, hsvc,
                              fsRead_remove, fsRead_write, hio, hpe, hup]
                          · simp [audioFlow, audioSvcOf, hc, hdl, hct, hsvc,
                              fsRead_remove, fsRead_write, hio, hpe, hup,
                              jGet2_audioSuccessBody]
                  ·
                    have hsvc := audioSvc_verify_fail u q defaultSamplerate
                        (fsWrite (tempInOf csp) ct []) hext hct' hld hcv hoc hv
                    simp [audioFlow, audioSvcOf, hc, hdl, hct, hsvc] at h200
        · have hsvc := audioSvc_unsupported ct u q defaultSamplerate fo
            (fsWrite (tempInOf csp) ct []) hext
          simp [audioFlow, audioSvcOf, hc, hdl, hct, hsvc] at h200

/-- Witness for `c10_amended` at a concrete successful request whose result
path `res/out.wav` is rewritten to `res/out.mp3`. -/
theorem c10_amended_witness :
    jGet2 (audioFlow "dir/song.wav" "res/out.wav" "8" "u0"
        ⟨.ok "d", .ok (some "M"), ""⟩ ⟨.ok "W", .ok (), "p"⟩ id).body
      "data" "path" = some (J.s "res/out.mp3") := by
  obtain ⟨p, oc, h1, h2, h3, h4, h5⟩ :=
    c10_amended "dir/song.wav" "res/out.wav" "8" "u0"
      ⟨.ok "d", .ok (some "M"), ""⟩ ⟨.ok "W", .ok (), "p"⟩ id (by decide)
  have hme : mp3PathE "res/out.wav" = Except.ok "res/out.mp3" := rfl
  have hp : p = "res/out.mp3" := by
    have h6 := hme.symm.trans h1
    injection h6 with h7
    exact h7.symm
  rw [hp] at h3
  exact h3
